import Mathlib

/-
  Verification development for the rustlox tree-walking interpreter
  (src/token.rs, src/environment.rs, src/expression.rs, src/parser.rs,
  src/interpreter.rs, src/main.rs).

  Shallow embedding conventions:
  * Rust `f64` doubles are modelled by `Rat`; no settled property depends on
    floating-point rounding, NaN, or the exact textual rendering of numbers.
  * Rust panics (including `unwrap()` on `None`/`Err` and out-of-range
    indexing/slicing) are modelled by an explicit `crashed` outcome, kept
    separate from the interpreter's own `Result`-carried errors.
  * Shared mutable `Rc<Environment>` chains are modelled by a heap (`List
    Frame`) indexed by environment ids; frames are only ever appended, and a
    frame's `parent` always points to an earlier index.
  * Message strings follow the source with single-quote characters stripped
    (e.g. the source writes "Undefined variable 'x'"; the model writes
    "Undefined variable x").
-/

namespace Rustlox

/-- Token kinds, from `TokenType` in src/token.rs. -/
inductive TokenType where
  | LEFT_PAREN | RIGHT_PAREN | LEFT_BRACE | RIGHT_BRACE
  | COMMA | DOT | MINUS | PLUS | SEMICOLON | SLASH | STAR
  | BANG | BANG_EQUAL | EQUAL | EQUAL_EQUAL
  | GREATER | GREATER_EQUAL | LESS | LESS_EQUAL
  | IDENTIFIER | STRING | NUMBER
  | AND | CLASS | ELSE | FALSE | FUN | FOR | IF | NIL | OR
  | PRINT | RETURN | SUPER | THIS | TRUE | VAR | WHILE | EOF
deriving DecidableEq, Repr, BEq

mutual

/-- Runtime values, from `Value` in src/token.rs.  `f64` is modelled by `Rat`. -/
inductive Value where
  | boolean (value : Bool)
  | double (value : Rat)
  | string (value : String)
  | nil
  | callable (c : Callable)

/-- Callables, from `Callable` in src/token.rs.  The native function pointer is
modelled opaquely by its display name (only `clock` exists, and no claim
depends on its behaviour).  `token.rs` declares `Function { declaration }`
while `interpreter.rs` constructs `Function { declaration, closure }`; the
model carries the `closure` field (an environment id) so that both cited code
sites are representable — `Callable::call` in token.rs ignores it. -/
inductive Callable where
  | native (arity : Int) (value : String)
  | func (declaration : Stmt) (closure : Nat)

/-- Expressions, from `Expr` in src/expression.rs. -/
inductive Expr where
  | assign (name : Token) (value : Expr)
  | binary (left : Expr) (operator : Token) (right : Expr)
  | grouping (expression : Expr)
  | literal (value : Value)
  | logical (left : Expr) (operator : Token) (right : Expr)
  | unary (operator : Token) (right : Expr)
  | variable_ (name : Token)
  | call (callee : Expr) (paren : Token) (arguments : List Expr)

/-- Statements, from `Stmt` in src/expression.rs.  Note there is no `For`
constructor: the parser desugars `for` into `while`/`block` (src/parser.rs,
`for_statement`). -/
inductive Stmt where
  | block (statements : List Stmt)
  | expression (e : Expr)
  | print (e : Expr)
  | var_ (name : Token) (initializer : Option Expr)
  | function_ (name : Token) (params : List Token) (body : List Stmt)
  | if_ (condition : Expr) (thenBranch : Stmt) (elseBranch : Option Stmt)
  | while_ (condition : Expr) (body : Stmt)
  | ret (keyword : Token) (value : Expr)

/-- Tokens, from `Token` in src/token.rs. -/
inductive Token where
  | mk (ttype : TokenType) (lexeme : String) (literal : Option Value) (line : Int)

end

def Token.ttype : Token → TokenType
  | .mk t _ _ _ => t

def Token.lexeme : Token → String
  | .mk _ l _ _ => l

def Token.literal : Token → Option Value
  | .mk _ _ lit _ => lit

def Token.line : Token → Int
  | .mk _ _ _ n => n

/-! ## Environment (src/environment.rs)

`Environment { values: Mutex<HashMap<String, Value>>, enclosing: Option<Rc<Environment>> }`.
The `Rc`-shared mutable chain is modelled by a heap: a `List Frame` indexed by
environment id, with `parent` the id of the enclosing environment.  Frames are
only ever created with an already-existing parent, so in every reachable store
a frame's parent index is strictly smaller than its own index; the `if p < id`
guards below make the lookup functions total, and their else branches
(`crashed`) are unreachable in reachable stores. -/

/-- One environment node: its local bindings and optional enclosing id. -/
structure Frame where
  values : List (String × Value)
  parent : Option Nat
deriving Inhabited

/-- `HashMap::get` on the local bindings (modelled as an association list). -/
def mapGet : List (String × Value) → String → Option Value
  | [], _ => none
  | (k1, v1) :: rest, k => if k1 == k then some v1 else mapGet rest k

/-- `HashMap::contains_key` on the local bindings. -/
def mapContains : List (String × Value) → String → Bool
  | [], _ => false
  | (k1, _) :: rest, k => k1 == k || mapContains rest k

/-- `HashMap::insert` on the local bindings: overwrite if present, else add. -/
def mapInsert : List (String × Value) → String → Value → List (String × Value)
  | [], k, v => [(k, v)]
  | (k1, v1) :: rest, k, v =>
      if k1 == k then (k, v) :: rest else (k1, v1) :: mapInsert rest k v

/-- Error/abnormal outcomes of interpretation.  `rt` is
`InterpreterError::RuntimeError { operator, error }` and `retSig` is
`InterpreterError::Return { value }` (src/interpreter.rs lines 18-28).
`crashed` models a Rust panic (not part of `InterpreterError`), and `fuelOut`
is the artificial out-of-fuel outcome of the embedding. -/
inductive Outcome where
  | rt (operator : TokenType) (error : String)
  | retSig (value : Value)
  | crashed (msg : String)
  | fuelOut

/-- The environment heap. -/
abbrev Store := List Frame

/-- `Environment::get` (src/environment.rs lines 49-72): local lookup, then
delegate to the enclosing environment, then "Undefined variable".  The first
argument is a structural depth bound instantiated with `id + 1` by `envGet`;
because parent ids strictly decrease in every reachable store (`p < id` is
checked), the bound is never exhausted there, and both the `p < id` guard
failure and exhaustion model a corrupt chain, unreachable in reachable
stores. -/
def envGetAux : Nat → Store → Nat → Token → Except Outcome Value
  | 0, _, _, _ => .error (.crashed "corrupt environment chain")
  | fu + 1, store, id, name =>
    match store.get? id with
    | none => .error (.crashed "environment id out of range")
    | some f =>
      if mapContains f.values name.lexeme then
        match mapGet f.values name.lexeme with
        | some v => .ok v
        | none => .error (.crashed "contains_key without value")
      else
        match f.parent with
        | some p =>
            if p < id then envGetAux fu store p name
            else .error (.crashed "corrupt environment chain")
        | none =>
            .error (.rt name.ttype ("Undefined variable " ++ name.lexeme))

def envGet (store : Store) (id : Nat) (name : Token) : Except Outcome Value :=
  envGetAux (id + 1) store id name

/-- `Environment::assign` (src/environment.rs lines 31-47): overwrite the
binding in the nearest scope of the chain that has one and return the assigned
value; on a complete miss, "Undefined variable".  Never inserts a binding into
a scope that lacks one.  Depth bound as in `envGetAux`. -/
def envAssignAux : Nat → Store → Nat → Token → Value →
    Except Outcome (Store × Value)
  | 0, _, _, _, _ => .error (.crashed "corrupt environment chain")
  | fu + 1, store, id, name, v =>
    match store.get? id with
    | none => .error (.crashed "environment id out of range")
    | some f =>
      if mapContains f.values name.lexeme then
        .ok (store.set id { f with values := mapInsert f.values name.lexeme v }, v)
      else
        match f.parent with
        | some p =>
            if p < id then envAssignAux fu store p name v
            else .error (.crashed "corrupt environment chain")
        | none =>
            .error (.rt name.ttype ("Undefined variable " ++ name.lexeme))

def envAssign (store : Store) (id : Nat) (name : Token) (v : Value) :
    Except Outcome (Store × Value) :=
  envAssignAux (id + 1) store id name v

/-- `Environment::define` (src/environment.rs lines 24-29): unconditional
insert into the current scope only. -/
def envDefine (store : Store) (id : Nat) (name : Token) (v : Value) : Store :=
  match store.get? id with
  | none => store
  | some f => store.set id { f with values := mapInsert f.values name.lexeme v }

/-- Whether any scope of the chain starting at `id` binds `name` (same guard
discipline and depth bound as `envGetAux`). -/
def chainContainsAux : Nat → Store → Nat → String → Bool
  | 0, _, _, _ => false
  | fu + 1, store, id, name =>
    match store.get? id with
    | none => false
    | some f =>
      mapContains f.values name ||
        match f.parent with
        | some p => if p < id then chainContainsAux fu store p name else false
        | none => false

def chainContains (store : Store) (id : Nat) (name : String) : Bool :=
  chainContainsAux (id + 1) store id name

/-- Well-formedness of a store: every parent pointer points to a strictly
earlier, existing frame.  Holds in every store the interpreter can build. -/
def StoreWF (store : Store) : Prop :=
  ∀ i f, store.get? i = some f → ∀ p, f.parent = some p →
    p < i ∧ (store.get? p).isSome

/-! ## Structural equality (Rust `derive(PartialEq)` on Value/Callable/Expr/Stmt/Token)

`f64` equality is modelled by `Rat` equality (no NaN in the model), and the
native-function pointer comparison by comparing arity and display name. -/

mutual

def valueEq : Value → Value → Bool
  | .boolean a, .boolean b => a == b
  | .double a, .double b => a == b
  | .string a, .string b => a == b
  | .nil, .nil => true
  | .callable a, .callable b => callableEq a b
  | _, _ => false

def callableEq : Callable → Callable → Bool
  | .native a1 v1, .native a2 v2 => a1 == a2 && v1 == v2
  | .func d1 c1, .func d2 c2 => stmtEq d1 d2 && c1 == c2
  | _, _ => false

def exprEq : Expr → Expr → Bool
  | .assign n1 v1, .assign n2 v2 => tokenEq n1 n2 && exprEq v1 v2
  | .binary l1 o1 r1, .binary l2 o2 r2 => exprEq l1 l2 && tokenEq o1 o2 && exprEq r1 r2
  | .grouping e1, .grouping e2 => exprEq e1 e2
  | .literal v1, .literal v2 => valueEq v1 v2
  | .logical l1 o1 r1, .logical l2 o2 r2 => exprEq l1 l2 && tokenEq o1 o2 && exprEq r1 r2
  | .unary o1 r1, .unary o2 r2 => tokenEq o1 o2 && exprEq r1 r2
  | .variable_ n1, .variable_ n2 => tokenEq n1 n2
  | .call c1 p1 a1, .call c2 p2 a2 => exprEq c1 c2 && tokenEq p1 p2 && exprListEq a1 a2
  | _, _ => false

def exprListEq : List Expr → List Expr → Bool
  | [], [] => true
  | a :: rest1, b :: rest2 => exprEq a b && exprListEq rest1 rest2
  | _, _ => false

def optExprEq : Option Expr → Option Expr → Bool
  | none, none => true
  | some a, some b => exprEq a b
  | _, _ => false

def stmtEq : Stmt → Stmt → Bool
  | .block s1, .block s2 => stmtListEq s1 s2
  | .expression e1, .expression e2 => exprEq e1 e2
  | .print e1, .print e2 => exprEq e1 e2
  | .var_ n1 i1, .var_ n2 i2 => tokenEq n1 n2 && optExprEq i1 i2
  | .function_ n1 p1 b1, .function_ n2 p2 b2 =>
      tokenEq n1 n2 && tokenListEq p1 p2 && stmtListEq b1 b2
  | .if_ c1 t1 e1, .if_ c2 t2 e2 => exprEq c1 c2 && stmtEq t1 t2 && optStmtEq e1 e2
  | .while_ c1 b1, .while_ c2 b2 => exprEq c1 c2 && stmtEq b1 b2
  | .ret k1 v1, .ret k2 v2 => tokenEq k1 k2 && exprEq v1 v2
  | _, _ => false

def stmtListEq : List Stmt → List Stmt → Bool
  | [], [] => true
  | a :: rest1, b :: rest2 => stmtEq a b && stmtListEq rest1 rest2
  | _, _ => false

def optStmtEq : Option Stmt → Option Stmt → Bool
  | none, none => true
  | some a, some b => stmtEq a b
  | _, _ => false

def tokenListEq : List Token → List Token → Bool
  | [], [] => true
  | a :: rest1, b :: rest2 => tokenEq a b && tokenListEq rest1 rest2
  | _, _ => false

def tokenEq : Token → Token → Bool
  | .mk t1 l1 lit1 n1, .mk t2 l2 lit2 n2 =>
      t1 == t2 && l1 == l2 && optValueEq lit1 lit2 && n1 == n2

def optValueEq : Option Value → Option Value → Bool
  | none, none => true
  | some a, some b => valueEq a b
  | _, _ => false

end

/-! ## Display rendering (`impl fmt::Display` in src/token.rs) -/

/-- `Display` for `TokenType`. -/
def ttypeName : TokenType → String
  | .LEFT_PAREN => "LEFT_PAREN" | .RIGHT_PAREN => "RIGHT_PAREN"
  | .LEFT_BRACE => "LEFT_BRACE" | .RIGHT_BRACE => "RIGHT_BRACE"
  | .COMMA => "COMMA" | .DOT => "DOT" | .MINUS => "MINUS" | .PLUS => "PLUS"
  | .SEMICOLON => "SEMICOLON" | .SLASH => "SLASH" | .STAR => "STAR"
  | .BANG => "BANG" | .BANG_EQUAL => "BANG_EQUAL"
  | .EQUAL => "EQUAL" | .EQUAL_EQUAL => "EQUAL_EQUAL"
  | .GREATER => "GREATER" | .GREATER_EQUAL => "GREATER_EQUAL"
  | .LESS => "LESS" | .LESS_EQUAL => "LESS_EQUAL"
  | .IDENTIFIER => "IDENTIFIER" | .STRING => "STRING" | .NUMBER => "NUMBER"
  | .AND => "AND" | .CLASS => "CLASS" | .ELSE => "ELSE" | .FALSE => "FALSE"
  | .FUN => "FUN" | .FOR => "FOR" | .IF => "IF" | .NIL => "NIL" | .OR => "OR"
  | .PRINT => "PRINT" | .RETURN => "RETURN" | .SUPER => "SUPER"
  | .THIS => "THIS" | .TRUE => "TRUE" | .VAR => "VAR" | .WHILE => "WHILE"
  | .EOF => "EOF"

/-- Modelled stand-in for Rust `f64` `Display` (the model carries `Rat`).
No settled property depends on its exact output. -/
def renderDouble (q : Rat) : String :=
  if q.den == 1 then toString q.num else toString q

mutual

/-- `Display` for `Value` (src/token.rs lines 228-238).  `none` models the Rust
panic inside `Callable::value` when the declaration is not a Function. -/
def renderValue : Value → Option String
  | .boolean b => some (if b then "true" else "false")
  | .double q => some (renderDouble q)
  | .string s => some s
  | .nil => some "Nil"
  | .callable c => callableValueStr c

/-- `Callable::value` (src/token.rs lines 196-217). -/
def callableValueStr : Callable → Option String
  | .native _ v => some v
  | .func d _ =>
    match d with
    | .function_ name _ _ => tokenDisplay name
    | _ => none

/-- `Display` for `Token` (src/token.rs lines 248-259). -/
def tokenDisplay : Token → Option String
  | .mk tt lex lit line =>
    match lit with
    | some lv =>
        (renderValue lv).map
          (fun ls => ttypeName tt ++ " " ++ lex ++ " " ++ ls ++ " " ++ toString line)
    | none => some (ttypeName tt ++ " " ++ lex ++ " " ++ toString line)

end

/-! ## Interpreter state (src/interpreter.rs) -/

/-- `Interpreter { global, environment }` plus the observable output stream
(`println!` in `visit_print_stmt` and in `interpret`'s error branch). -/
structure IState where
  store : Store
  globalId : Nat
  envId : Nat
  output : List String

/-- `Interpreter::is_truthy` (src/interpreter.rs lines 103-111). -/
def isTruthy : Value → Bool
  | .boolean b => b
  | .double _ => true
  | .string _ => true
  | .nil => false
  | .callable _ => true

/-- `params.len() as i8` in `Callable::arity` (src/token.rs line 157). -/
def wrapI8 (n : Nat) : Int := ((n : Int) + 128) % 256 - 128

/-- `Callable::arity` (src/token.rs lines 143-163); the `panic!("No params")`
branch is modelled as `crashed`. -/
def arity : Callable → Except Outcome Int
  | .native a _ => .ok a
  | .func d _ =>
    match d with
    | .function_ _ params _ => .ok (wrapI8 params.length)
    | _ => .error (.crashed "No params")

/-- The i8-to-usize cast in `callable.arity() as usize`
(src/interpreter.rs line 365): sign-extends, so negative arities become huge. -/
def i8AsUsize (a : Int) : Int := if a < 0 then a + 2 ^ 64 else a

/-- The parameter-binding loop of `Callable::call` (src/token.rs lines 182-184):
`for (i, param) in params.iter().enumerate() { environment.define(param, &values[i]) }`.
`none` models the Rust index-out-of-bounds panic when `values` is too short. -/
def bindParams : List Token → List Value → Nat → List (String × Value) →
    Option (List (String × Value))
  | [], _, _, acc => some acc
  | p :: ps, vals, i, acc =>
    match vals.get? i with
    | none => none
    | some v => bindParams ps vals (i + 1) (mapInsert acc p.lexeme v)

/-- Modelled Debug formatting used by `interpret`'s error reporter
(`println!("Runtime Error caught at interpret: ...")`); approximate, no claim
depends on its exact output. -/
def debugOutcome : Outcome → String
  | .rt op msg => "RuntimeError[" ++ ttypeName op ++ ", " ++ msg ++ "]"
  | .retSig _ => "Return[..]"
  | .crashed m => "panic[" ++ m ++ "]"
  | .fuelOut => "fuelOut"

/-! ## The evaluator (src/interpreter.rs, and `Callable::call` in src/token.rs)

All functions are fuel-indexed (`Nat` first argument) because source-level
recursion (loops, function calls) is unbounded.  `fuelOut` only ever arises
from exhausted fuel; every theorem below either quantifies over fuel or uses a
concretely sufficient amount. -/

mutual

/-- `Interpreter::evaluate` dispatched through the `ExprVisitor` impl
(src/interpreter.rs lines 163-384).  The `panic!("Nope!")` arms guarding
against mis-dispatched nodes are unrepresentable here because dispatch is a
direct match on the node. -/
def evaluate : Nat → Expr → IState → Except Outcome Value × IState
  | 0, _, st => (.error .fuelOut, st)
  | n + 1, e, st =>
    match e with
    | .literal v => (.ok v, st)
    | .grouping inner => evaluate n inner st
    | .unary op right =>
      -- visit_unary_expr (lines 272-294): `-` demands Double else panics;
      -- `!` negates truthiness; any other operator panics.
      match evaluate n right st with
      | (.error er, st1) => (.error er, st1)
      | (.ok rv, st1) =>
        match op.ttype with
        | .MINUS =>
          match rv with
          | .double q => (.ok (.double (-q)), st1)
          | _ => (.error (.crashed "Nope!"), st1)
        | .BANG => (.ok (.boolean (!isTruthy rv)), st1)
        | _ => (.error (.crashed "Nope!"), st1)
    | .binary left op right =>
      -- visit_binary_expr (lines 163-256).
      match evaluate n left st with
      | (.error er, st1) => (.error er, st1)
      | (.ok lv, st1) =>
        match evaluate n right st1 with
        | (.error er, st2) => (.error er, st2)
        | (.ok rv, st2) =>
          match op.ttype with
          | .EQUAL_EQUAL => (.ok (.boolean (valueEq lv rv)), st2)
          | .BANG_EQUAL => (.ok (.boolean (!valueEq lv rv)), st2)
          | _ =>
            match lv with
            | .double l =>
              match rv with
              | .double r =>
                match op.ttype with
                | .MINUS => (.ok (.double (l - r)), st2)
                | .PLUS => (.ok (.double (l + r)), st2)
                | .SLASH => (.ok (.double (l / r)), st2)
                | .STAR => (.ok (.double (l * r)), st2)
                | .GREATER => (.ok (.boolean (decide (r < l))), st2)
                | .GREATER_EQUAL => (.ok (.boolean (decide (r ≤ l))), st2)
                | .LESS => (.ok (.boolean (decide (l < r))), st2)
                | .LESS_EQUAL => (.ok (.boolean (decide (l ≤ r))), st2)
                | other =>
                    (.error (.rt other "Cannot perform this operation on a number"), st2)
              | .boolean _ =>
                  (.error (.rt op.ttype "Cannot perform this with a number and boolean"), st2)
              | .string _ =>
                  (.error (.rt op.ttype "Cannot perform this with a number and a string"), st2)
              | .nil =>
                  (.error (.rt op.ttype "Cannot perform this with a number and nil"), st2)
              | .callable _ =>
                  (.error (.rt op.ttype "Cannot perform this with a number and Callable"), st2)
            | .string l =>
              -- String left operand: `+` concatenates with the Display
              -- rendering of ANY right operand (line 238-240).
              match op.ttype with
              | .PLUS =>
                match renderValue rv with
                | some rs => (.ok (.string (l ++ rs)), st2)
                | none => (.error (.crashed "Nope!"), st2)
              | other =>
                  (.error (.rt other "Cannot perform this operation on a string"), st2)
            | _ =>
                (.error (.rt op.ttype "Cannot perform this operation on this type"), st2)
    | .variable_ name =>
      -- visit_variable_expr (lines 296-301).
      (envGet st.store st.envId name, st)
    | .assign name value =>
      -- visit_assign_expr (lines 303-315).
      match evaluate n value st with
      | (.error er, st1) => (.error er, st1)
      | (.ok v, st1) =>
        match envAssign st1.store st1.envId name v with
        | .ok (store2, rv) => (.ok rv, { st1 with store := store2 })
        | .error er => (.error er, st1)
    | .logical left op right =>
      -- visit_logical_expr (lines 317-345): short-circuit, returns the
      -- original operand value.
      match evaluate n left st with
      | (.error er, st1) => (.error er, st1)
      | (.ok lv, st1) =>
        if op.ttype == .OR then
          if isTruthy lv then (.ok lv, st1) else evaluate n right st1
        else
          if !isTruthy lv then (.ok lv, st1) else evaluate n right st1
    | .call callee paren args =>
      -- visit_call_expr (lines 347-383): the callee result is stored, then
      -- ALL arguments are evaluated (their errors returned first), and only
      -- then is the stored callee result inspected — a runtime error from the
      -- callee is replaced by "Can only call functions and classes.".
      match evaluate n callee st with
      | (.error (.crashed m), st1) => (.error (.crashed m), st1)
      | (.error .fuelOut, st1) => (.error .fuelOut, st1)
      | (calleeRes, st1) =>
        match evalArgs n args st1 with
        | (.error er, st2) => (.error er, st2)
        | (.ok argVals, st2) =>
          match calleeRes with
          | .ok (.callable c) =>
            match arity c with
            | .error er => (.error er, st2)
            | .ok a =>
              if (argVals.length : Int) == i8AsUsize a then
                callCallable n c argVals st2
              else
                (.error (.rt paren.ttype "Expected x arguments, but got y"), st2)
          | _ =>
              (.error (.rt paren.ttype "Can only call functions and classes."), st2)

/-- The argument-evaluation loop of `visit_call_expr` (lines 357-362):
left to right, first failure aborts the rest. -/
def evalArgs : Nat → List Expr → IState → Except Outcome (List Value) × IState
  | _, [], st => (.ok [], st)
  | 0, _ :: _, st => (.error .fuelOut, st)
  | n + 1, e :: rest, st =>
    match evaluate n e st with
    | (.error er, st1) => (.error er, st1)
    | (.ok v, st1) =>
      match evalArgs n rest st1 with
      | (.error er, st2) => (.error er, st2)
      | (.ok vs, st2) => (.ok (v :: vs), st2)

/-- `Callable::call` (src/token.rs lines 165-194).  For a user Function it
creates `Environment::new(None)` — parent `none`, NOT the captured closure —
binds the parameters there, runs the body via `execute_block`, IGNORES the
returned `StatementResult`, and produces `Value::Nil`.  Natives: only `clock`
exists; its system-clock read is modelled by an arbitrary fixed Double. -/
def callCallable : Nat → Callable → List Value → IState →
    Except Outcome Value × IState
  | 0, _, _, st => (.error .fuelOut, st)
  | n + 1, c, vals, st =>
    match c with
    | .native _ _ => (.ok (.double 0), st)
    | .func d _closure =>
      match d with
      | .function_ _ params body =>
        match bindParams params vals 0 [] with
        | none => (.error (.crashed "index out of bounds"), st)
        | some frameVals =>
          match executeBlock n body ⟨frameVals, none⟩ st with
          | (.error (.crashed m), st1) => (.error (.crashed m), st1)
          | (.error .fuelOut, st1) => (.error .fuelOut, st1)
          | (_, st1) => (.ok .nil, st1)
      | _ => (.error (.crashed "Nope!"), st)

/-- `Interpreter::execute_block` (src/interpreter.rs lines 130-160): install
the freshly created environment as current, run the statements, restore. -/
def executeBlock : Nat → List Stmt → Frame → IState →
    Except Outcome Unit × IState
  | 0, _, _, st => (.error .fuelOut, st)
  | n + 1, stmts, frame, st =>
    blockLoop n st.envId stmts
      { st with store := st.store ++ [frame], envId := st.store.length }

/-- The statement loop of `execute_block`: on `Ok` continue; on `Err`
(runtime error OR return signal) restore the previous environment and
propagate; after the loop restore and return `Ok`.  A Rust panic unwinds past
the restore, so `crashed` (and the artificial `fuelOut`) skip it. -/
def blockLoop : Nat → Nat → List Stmt → IState → Except Outcome Unit × IState
  | _, prev, [], st => (.ok (), { st with envId := prev })
  | 0, _, _ :: _, st => (.error .fuelOut, st)
  | n + 1, prev, s :: rest, st =>
    match execute n s st with
    | (.ok _, st1) => blockLoop n prev rest st1
    | (.error (.crashed m), st1) => (.error (.crashed m), st1)
    | (.error .fuelOut, st1) => (.error .fuelOut, st1)
    | (.error er, st1) => (.error er, { st1 with envId := prev })

/-- `Interpreter::execute` dispatched through the `StmtVisitor` impl
(src/interpreter.rs lines 386-540). -/
def execute : Nat → Stmt → IState → Except Outcome Unit × IState
  | 0, _, st => (.error .fuelOut, st)
  | n + 1, stmt, st =>
    match stmt with
    | .expression e =>
      -- visit_expression_stmt (lines 387-399): evaluate and discard.
      match evaluate n e st with
      | (.ok _, st1) => (.ok (), st1)
      | (.error er, st1) => (.error er, st1)
    | .print e =>
      -- visit_print_stmt (lines 401-412): evaluate, println! the rendering.
      match evaluate n e st with
      | (.error er, st1) => (.error er, st1)
      | (.ok v, st1) =>
        match renderValue v with
        | some s => (.ok (), { st1 with output := st1.output ++ [s] })
        | none => (.error (.crashed "Nope!"), st1)
    | .var_ name init? =>
      -- visit_variable_stmt (lines 414-435).
      match init? with
      | some ie =>
        match evaluate n ie st with
        | (.error er, st1) => (.error er, st1)
        | (.ok v, st1) =>
            (.ok (), { st1 with store := envDefine st1.store st1.envId name v })
      | none =>
          (.ok (), { st with store := envDefine st.store st.envId name .nil })
    | .block stmts =>
      -- visit_block_stmt (lines 437-445): child environment parented at the
      -- current one.
      executeBlock n stmts ⟨[], some st.envId⟩ st
    | .if_ cond thenB elseB =>
      -- visit_if_stmt (lines 447-465): NOTE `self.evaluate(condition).unwrap()`
      -- — an Err from the condition is a panic, not a propagated error.
      match evaluate n cond st with
      | (.ok v, st1) =>
        if isTruthy v then execute n thenB st1
        else
          match elseB with
          | some eb => execute n eb st1
          | none => (.ok (), st1)
      | (.error (.crashed m), st1) => (.error (.crashed m), st1)
      | (.error .fuelOut, st1) => (.error .fuelOut, st1)
      | (.error _, st1) =>
          (.error (.crashed "called Result::unwrap() on an Err value"), st1)
    | .while_ cond body =>
      -- visit_while_stmt (lines 467-493).
      match evaluate n cond st with
      | (.error er, st1) => (.error er, st1)
      | (.ok v, st1) =>
        if isTruthy v then
          match execute n body st1 with
          | (.ok _, st2) => execute n (.while_ cond body) st2
          | (.error er, st2) => (.error er, st2)
        else (.ok (), st1)
    | .function_ name params body =>
      -- visit_function_stmt (lines 495-516): define the function under its
      -- own name, capturing the CURRENT environment as `closure`.
      (.ok (),
        { st with
          store := envDefine st.store st.envId name
            (.callable (.func (.function_ name params body) st.envId)) })
    | .ret _ value =>
      -- visit_return_stmt (lines 519-539): evaluate and signal
      -- `InterpreterError::Return { value }`.
      match evaluate n value st with
      | (.error er, st1) => (.error er, st1)
      | (.ok v, st1) => (.error (.retSig v), st1)

end

/-- `Interpreter::interpret` (src/interpreter.rs lines 83-93): execute each
top-level statement; on `Err` print the debug rendering and stop (without
propagating); a panic aborts. -/
def interpret : Nat → List Stmt → IState → Except Outcome Unit × IState
  | _, [], st => (.ok (), st)
  | 0, _ :: _, st => (.error .fuelOut, st)
  | n + 1, s :: rest, st =>
    match execute n s st with
    | (.ok _, st1) => interpret n rest st1
    | (.error (.crashed m), st1) => (.error (.crashed m), st1)
    | (.error .fuelOut, st1) => (.error .fuelOut, st1)
    | (.error er, st1) =>
        (.ok (),
         { st1 with
           output := st1.output ++
             ["Runtime Error caught at interpret: " ++ debugOutcome er] })

/-- `Interpreter::new` (src/interpreter.rs lines 44-81): one global
environment, pre-populated with the native `clock`. -/
def initInterp : IState :=
  { store := [⟨[("clock", .callable (.native 0 "<native fn>"))], none⟩]
    globalId := 0
    envId := 0
    output := [] }

/-! ## Scanner (src/token.rs lines 261-526)

The Rust scanner mixes byte offsets and character offsets: `is_at_end`
compares the cursor against `source.len()` (BYTES), while `current_char` uses
`source.chars().nth(current)` (CHARACTERS) and `current_string` slices by byte
range.  The model keeps the source as a `List Char` and computes byte lengths
with `Char.utf8Size`, so both views and their mismatch are representable.
Loops carry explicit fuel; `SOut.fuelOut` is the artificial exhaustion
outcome and `SOut.crashed` models Rust panics (`unwrap` on `None`,
out-of-range or non-boundary slicing). -/

inductive SOut where
  | crashed (msg : String)
  | fuelOut

/-- Scanner state (`start`, `current`, `line`, `tokens`); the source text is
passed separately since it is never mutated. -/
structure SState where
  start : Nat
  current : Nat
  line : Int
  tokens : List Token
deriving Inhabited

/-- `self.source.len()` — the BYTE length of the source. -/
def byteLen (src : List Char) : Nat := (src.map Char.utf8Size).sum

/-- `Scanner::is_at_end` (line 484-486): `current >= source.len()`. -/
def isAtEnd (src : List Char) (cur : Nat) : Bool := byteLen src ≤ cur

/-- `Scanner::current_char` (line 511-513):
`source.chars().nth(current).unwrap()` — a CHARACTER index. -/
def currentChar (src : List Char) (cur : Nat) : Except SOut Char :=
  match src.get? cur with
  | some c => .ok c
  | none => .error (.crashed "called Option::unwrap on a None value")

/-- `Scanner::advance` (lines 464-468). -/
def advanceS (src : List Char) (st : SState) : Except SOut (Char × SState) := do
  let c ← currentChar src st.current
  .ok (c, { st with current := st.current + 1 })

/-- `Scanner::is_match` (lines 470-482). -/
def isMatchS (src : List Char) (expected : Char) (st : SState) :
    Except SOut (Bool × SState) :=
  if isAtEnd src st.current then .ok (false, st)
  else do
    let c ← currentChar src st.current
    if expected != c then .ok (false, st)
    else .ok (true, { st with current := st.current + 1 })

/-- `Scanner::peek` (lines 488-494). -/
def peekS (src : List Char) (st : SState) : Except SOut Char :=
  if isAtEnd src st.current then .ok '\x00'
  else currentChar src st.current

/-- `Scanner::peek_next` (lines 496-505): NOTE the guard is
`current + 1 > source.len()`, so at `current + 1 = len` it still calls
`chars().nth(current + 1)`, which is out of range on an all-ASCII source —
the `.unwrap()` panics. -/
def peekNextS (src : List Char) (st : SState) : Except SOut Char :=
  if byteLen src < st.current + 1 then .ok '\x00'
  else
    match src.get? (st.current + 1) with
    | some c => .ok c
    | none => .error (.crashed "called Option::unwrap on a None value")

/-- Drop a prefix of exactly `n` BYTES; `none` when `n` is not a character
boundary or exceeds the text. -/
def dropBytes : List Char → Nat → Option (List Char)
  | l, 0 => some l
  | [], _ + 1 => none
  | c :: cs, n + 1 =>
      if c.utf8Size ≤ n + 1 then dropBytes cs (n + 1 - c.utf8Size) else none

/-- Take a prefix of exactly `n` BYTES; `none` when `n` is not a character
boundary or exceeds the text. -/
def takeBytes : List Char → Nat → Option (List Char)
  | _, 0 => some []
  | [], _ + 1 => none
  | c :: cs, n + 1 =>
      if c.utf8Size ≤ n + 1 then (takeBytes cs (n + 1 - c.utf8Size)).map (c :: ·)
      else none

/-- Rust string slicing `&source[a..b]` by byte offsets. -/
def sliceBytes (src : List Char) (a b : Nat) : Option (List Char) :=
  if a ≤ b then (dropBytes src a).bind (fun l => takeBytes l (b - a)) else none

/-- `Scanner::current_string` (lines 507-509): `&source[start..current]`;
panics (`crashed`) when the byte range is invalid. -/
def currentString (src : List Char) (st : SState) : Except SOut (List Char) :=
  match sliceBytes src st.start st.current with
  | some l => .ok l
  | none => .error (.crashed "byte index is not a char boundary")

/-- `Scanner::add_token` (lines 455-462). -/
def addToken (src : List Char) (ttype : TokenType) (literal : Option Value)
    (st : SState) : Except SOut SState := do
  let lex ← currentString src st
  .ok { st with
        tokens := st.tokens ++ [Token.mk ttype (String.mk lex) literal st.line] }

/-- `Scanner::is_digit` (lines 519-521). -/
def isDigitC (c : Char) : Bool := 48 ≤ c.toNat && c.toNat ≤ 57

/-- `Scanner::is_alpha` (lines 523-525). -/
def isAlphaC (c : Char) : Bool :=
  (97 ≤ c.toNat && c.toNat ≤ 122) || (65 ≤ c.toNat && c.toNat ≤ 90) || c == '_'

/-- `Scanner::is_alpha_numeric` (lines 515-517). -/
def isAlphaNumericC (c : Char) : Bool := isDigitC c || isAlphaC c

/-- The `KEYWORDS` table (src/token.rs lines 59-78). -/
def keywordLookup : String → Option TokenType
  | "and" => some .AND
  | "class" => some .CLASS
  | "else" => some .ELSE
  | "false" => some .FALSE
  | "for" => some .FOR
  | "fun" => some .FUN
  | "if" => some .IF
  | "nil" => some .NIL
  | "or" => some .OR
  | "print" => some .PRINT
  | "return" => some .RETURN
  | "super" => some .SUPER
  | "this" => some .THIS
  | "true" => some .TRUE
  | "var" => some .VAR
  | "while" => some .WHILE
  | _ => none

/-- Accumulate the digits of a numeral. -/
def digitsToNat (l : List Char) : Nat :=
  l.foldl (fun n c => 10 * n + (c.toNat - 48)) 0

/-- Stand-in for `f64::from_str` on the numerals the scanner can produce
(`digit+` optionally followed by `.` `digit+`); `none` elsewhere models the
`.unwrap()` panic in `Scanner::number`. -/
def parseDouble (l : List Char) : Option Rat :=
  let intPart := l.takeWhile (fun c => c != '.')
  let rest := l.dropWhile (fun c => c != '.')
  match rest with
  | '.' :: frac =>
      if !intPart.isEmpty && intPart.all isDigitC
          && !frac.isEmpty && frac.all isDigitC then
        some ((digitsToNat intPart : Rat) + (digitsToNat frac : Rat) / (10 : Rat) ^ frac.length)
      else none
  | _ =>
      if !intPart.isEmpty && intPart.all isDigitC then
        some ((digitsToNat intPart : Nat) : Rat)
      else none

/-- The `//` comment loop in `Scanner::scan_token` (lines 343-355). -/
def commentLoop : Nat → List Char → SState → Except SOut SState
  | 0, _, _ => .error .fuelOut
  | n + 1, src, st => do
    let p ← peekS src st
    if p == '\n' || isAtEnd src st.current then .ok st
    else do
      let (_, st1) ← advanceS src st
      commentLoop n src st1

/-- The body loop of `Scanner::string` (lines 374-384). -/
def stringLoop : Nat → List Char → SState → Except SOut SState
  | 0, _, _ => .error .fuelOut
  | n + 1, src, st => do
    let p ← peekS src st
    if p == '"' || isAtEnd src st.current then .ok st
    else do
      let st1 := if p == '\n' then { st with line := st.line + 1 } else st
      let (_, st2) ← advanceS src st1
      stringLoop n src st2

/-- `Scanner::string` (lines 374-402): on end-of-input WITHOUT a closing
quote it just returns — `// TODO ERROR` in the source — producing no token
and no report.  Otherwise the literal is the lexeme minus its quotes
(`value[1..value.len()-1]`). -/
def stringFn (n : Nat) (src : List Char) (st : SState) : Except SOut SState := do
  let st ← stringLoop n src st
  if isAtEnd src st.current then .ok st
  else do
    let (_, st) ← advanceS src st
    let value ← currentString src st
    addToken src .STRING
      (some (.string (String.mk ((value.drop 1).dropLast)))) st

/-- The advance-while-digit loop used twice by `Scanner::number`. -/
def digitLoop : Nat → List Char → SState → Except SOut SState
  | 0, _, _ => .error .fuelOut
  | n + 1, src, st => do
    let p ← peekS src st
    if isDigitC p then do
      let (_, st1) ← advanceS src st
      digitLoop n src st1
    else .ok st

/-- `Scanner::number` (lines 404-431).  The `&&` short-circuits: `peek_next`
(and its possible panic) is only reached when `peek` is a dot. -/
def numberFn (n : Nat) (src : List Char) (st : SState) : Except SOut SState := do
  let st ← digitLoop n src st
  let p ← peekS src st
  let frac ← if p == '.' then do
      let q ← peekNextS src st
      pure (isDigitC q)
    else pure false
  let st ← if frac then do
      let (_, st1) ← advanceS src st
      digitLoop n src st1
    else pure st
  let lex ← currentString src st
  match parseDouble lex with
  | some q => addToken src .NUMBER (some (.double q)) st
  | none => .error (.crashed "called Result::unwrap on an Err value")

/-- The advance-while-alphanumeric loop of `Scanner::identifier`. -/
def identLoop : Nat → List Char → SState → Except SOut SState
  | 0, _, _ => .error .fuelOut
  | n + 1, src, st => do
    let p ← peekS src st
    if isAlphaNumericC p then do
      let (_, st1) ← advanceS src st
      identLoop n src st1
    else .ok st

/-- `Scanner::identifier` (lines 433-449). -/
def identifierFn (n : Nat) (src : List Char) (st : SState) :
    Except SOut SState := do
  let st ← identLoop n src st
  let text ← currentString src st
  match keywordLookup (String.mk text) with
  | some kw => addToken src kw none st
  | none => addToken src .IDENTIFIER none st

/-- `Scanner::scan_token` (lines 301-372).  An unrecognized character falls
into the final else branch, which the source leaves empty (`// error`): it is
silently skipped, with no report. -/
def scanToken (n : Nat) (src : List Char) (st : SState) : Except SOut SState := do
  let (c, st) ← advanceS src st
  if c == '(' then addToken src .LEFT_PAREN none st
  else if c == ')' then addToken src .RIGHT_PAREN none st
  else if c == '{' then addToken src .LEFT_BRACE none st
  else if c == '}' then addToken src .RIGHT_BRACE none st
  else if c == ',' then addToken src .COMMA none st
  else if c == '.' then addToken src .DOT none st
  else if c == '-' then addToken src .MINUS none st
  else if c == '+' then addToken src .PLUS none st
  else if c == ';' then addToken src .SEMICOLON none st
  else if c == '*' then addToken src .STAR none st
  else if c == '!' then do
    let (m, st1) ← isMatchS src '=' st
    if m then addToken src .BANG_EQUAL none st1
    else addToken src .BANG none st1
  else if c == '=' then do
    let (m, st1) ← isMatchS src '=' st
    if m then addToken src .EQUAL_EQUAL none st1
    else addToken src .EQUAL none st1
  else if c == '<' then do
    let (m, st1) ← isMatchS src '=' st
    if m then addToken src .LESS_EQUAL none st1
    else addToken src .LESS none st1
  else if c == '>' then do
    let (m, st1) ← isMatchS src '=' st
    if m then addToken src .GREATER_EQUAL none st1
    else addToken src .GREATER none st1
  else if c == '/' then do
    let (m, st1) ← isMatchS src '/' st
    if m then commentLoop n src st1
    else addToken src .SLASH none st1
  else if c == ' ' then .ok st
  else if c == '\r' then .ok st
  else if c == '\t' then .ok st
  else if c == '\n' then .ok { st with line := st.line + 1 }
  else if c == '"' then stringFn n src st
  else if isDigitC c then numberFn n src st
  else if isAlphaC c then identifierFn n src st
  else .ok st

/-- The main loop of `Scanner::scan_tokens` (lines 280-299). -/
def scanLoop : Nat → List Char → SState → Except SOut SState
  | 0, src, st => if isAtEnd src st.current then .ok st else .error .fuelOut
  | n + 1, src, st =>
    if isAtEnd src st.current then .ok st
    else do
      let st1 ← scanToken n src { st with start := st.current }
      scanLoop n src st1

/-- `Scanner::scan_tokens` (lines 280-299): loop, then push the EOF token. -/
def scanTokens (n : Nat) (src : List Char) (st : SState) :
    Except SOut (List Token × SState) := do
  let st ← scanLoop n src st
  let st := { st with tokens := st.tokens ++ [Token.mk .EOF "" none st.line] }
  .ok (st.tokens, st)

/-- `Scanner::new` (lines 270-278). -/
def initScan : SState := { start := 0, current := 0, line := 1, tokens := [] }

/-- Scan a whole source string from a fresh scanner. -/
def scanSource (n : Nat) (s : String) : Except SOut (List Token × SState) :=
  scanTokens n s.data initScan

/-! ## Parser (src/parser.rs)

Expression-level functions return `Except PErr Expr` as a value (Rust
`Result<Expr, ParseError>`); statement-level functions panic on errors
(`crashed`), exactly as the source does.  The many distinct Rust panic
format strings are modelled as `"parse panic: "` plus the error message. -/

inductive POut where
  | crashed (msg : String)
  | fuelOut

/-- `ParseError { message, line, error_where }` (src/parser.rs lines 12-19). -/
structure PErr where
  message : String
  line : Int
  errorWhere : String

/-- `Parser { current, tokens }` (src/parser.rs lines 6-10). -/
structure PState where
  current : Nat
  tokens : List Token

/-- `Parser::peek` (lines 729-731): `tokens[current]`, panics out of range. -/
def pPeek (st : PState) : Except POut Token :=
  match st.tokens.get? st.current with
  | some t => .ok t
  | none => .error (.crashed "index out of bounds")

/-- `Parser::previous` (lines 733-735): `tokens[(current - 1) as usize]`;
at `current = 0` the i64 value -1 casts to an astronomically large usize, so
the indexing panics. -/
def pPrevious (st : PState) : Except POut Token :=
  if st.current = 0 then .error (.crashed "index out of bounds")
  else
    match st.tokens.get? (st.current - 1) with
    | some t => .ok t
    | none => .error (.crashed "index out of bounds")

/-- `Parser::is_at_end` (lines 725-727). -/
def pIsAtEnd (st : PState) : Except POut Bool :=
  match pPeek st with
  | .error e => .error e
  | .ok t => .ok (t.ttype == .EOF)

/-- `Parser::check` (lines 717-723). -/
def pCheck (tt : TokenType) (st : PState) : Except POut Bool :=
  match pIsAtEnd st with
  | .error e => .error e
  | .ok true => .ok false
  | .ok false =>
    match pPeek st with
    | .error e => .error e
    | .ok t => .ok (t.ttype == tt)

/-- `Parser::advance` (lines 750-756). -/
def pAdvance (st : PState) : Except POut (Token × PState) :=
  match pIsAtEnd st with
  | .error e => .error e
  | .ok e =>
    let st1 := if e then st else { st with current := st.current + 1 }
    match pPrevious st1 with
    | .error e2 => .error e2
    | .ok t => .ok (t, st1)

/-- `Parser::is_match` (lines 707-715). -/
def pIsMatch : List TokenType → PState → Except POut (Bool × PState)
  | [], st => .ok (false, st)
  | tt :: rest, st =>
    match pCheck tt st with
    | .error e => .error e
    | .ok true =>
      match pAdvance st with
      | .error e => .error e
      | .ok (_, st1) => .ok (true, st1)
    | .ok false => pIsMatch rest st

/-- `Parser::error` (lines 780-794); the quotes around the lexeme are
stripped per the file-wide convention. -/
def pError (token : Token) (message : String) : PErr :=
  if token.ttype == .EOF then ⟨message, token.line, " at end "⟩
  else ⟨message, token.line, " at " ++ token.lexeme⟩

/-- `Parser::current_error` (lines 746-748). -/
def pCurrentError (message : String) (st : PState) : Except POut PErr :=
  match pPeek st with
  | .error e => .error e
  | .ok t => .ok (pError t message)

/-- `Parser::consume` (lines 737-744). -/
def pConsume (tt : TokenType) (message : String) (st : PState) :
    Except POut (Except PErr Token × PState) :=
  match pCheck tt st with
  | .error e => .error e
  | .ok true =>
    match pAdvance st with
    | .error e => .error e
    | .ok (t, st1) => .ok (.ok t, st1)
  | .ok false =>
    match pCurrentError message st with
    | .error e => .error e
    | .ok pe => .ok (.error pe, st)

/-- `consume` followed by the statement parsers' `panic!` on `Err`. -/
def pConsumeP (tt : TokenType) (message : String) (st : PState) :
    Except POut (Token × PState) :=
  match pConsume tt message st with
  | .error e => .error e
  | .ok (.ok t, st1) => .ok (t, st1)
  | .ok (.error pe, _) => .error (.crashed ("parse panic: " ++ pe.message))

mutual

/-- `Parser::declaration` (lines 47-56). -/
def pDeclaration : Nat → PState → Except POut (Stmt × PState)
  | 0, _ => .error .fuelOut
  | n + 1, st =>
    match pIsMatch [.FUN] st with
    | .error e => .error e
    | .ok (true, st1) => pFunction n st1
    | .ok (false, st1) =>
      match pIsMatch [.VAR] st1 with
      | .error e => .error e
      | .ok (true, st2) => pVarDeclaration n st2
      | .ok (false, st2) => pStatement n st2

/-- `Parser::function` (lines 58-130).  The over-255-parameters branch only
constructs a `ParseError` and discards it, so it is a no-op and is omitted. -/
def pFunction : Nat → PState → Except POut (Stmt × PState)
  | 0, _ => .error .fuelOut
  | n + 1, st =>
    match pConsumeP .IDENTIFIER "Expect + kind + name." st with
    | .error e => .error e
    | .ok (name, st) =>
      match pConsumeP .LEFT_PAREN "Expect ( after + kind + name." st with
      | .error e => .error e
      | .ok (_, st) =>
        match pCheck .RIGHT_PAREN st with
        | .error e => .error e
        | .ok rp =>
          match (if !rp then pParamsLoop n [] st else .ok ([], st)) with
          | .error e => .error e
          | .ok (params, st) =>
            match pConsumeP .RIGHT_PAREN "Expect ) after parameters." st with
            | .error e => .error e
            | .ok (_, st) =>
              match pConsumeP .LEFT_BRACE "Expect \x7b before + kind + body." st with
              | .error e => .error e
              | .ok (_, st) =>
                match pBlock n st with
                | .error e => .error e
                | .ok (body, st) => .ok (Stmt.function_ name params body, st)

/-- The parameter loop inside `Parser::function` (lines 81-99). -/
def pParamsLoop : Nat → List Token → PState → Except POut (List Token × PState)
  | 0, _, _ => .error .fuelOut
  | n + 1, acc, st =>
    match pConsumeP .IDENTIFIER "Expect parameter name." st with
    | .error e => .error e
    | .ok (param, st) =>
      match pIsMatch [.COMMA] st with
      | .error e => .error e
      | .ok (true, st) => pParamsLoop n (acc ++ [param]) st
      | .ok (false, st) => .ok (acc ++ [param], st)

/-- `Parser::var_declaration` (lines 132-177). -/
def pVarDeclaration : Nat → PState → Except POut (Stmt × PState)
  | 0, _ => .error .fuelOut
  | n + 1, st =>
    match pConsumeP .IDENTIFIER "Expect variable name" st with
    | .error e => .error e
    | .ok (token, st) =>
      match pIsMatch [.EQUAL] st with
      | .error e => .error e
      | .ok (true, st) =>
        match pExpression n st with
        | .error e => .error e
        | .ok (.ok initializer, st) =>
          match pConsumeP .SEMICOLON "Expect ; after value." st with
          | .error e => .error e
          | .ok (_, st) => .ok (Stmt.var_ token (some initializer), st)
        | .ok (.error _, _) => .error (.crashed "FUCCBARR")
      | .ok (false, st) =>
        match pConsumeP .SEMICOLON "Expect ; after value." st with
        | .error e => .error e
        | .ok (_, st) => .ok (Stmt.var_ token none, st)

/-- `Parser::statement` (lines 179-195). -/
def pStatement : Nat → PState → Except POut (Stmt × PState)
  | 0, _ => .error .fuelOut
  | n + 1, st =>
    match pIsMatch [.FOR] st with
    | .error e => .error e
    | .ok (true, st) => pForStatement n st
    | .ok (false, st) =>
      match pIsMatch [.IF] st with
      | .error e => .error e
      | .ok (true, st) => pIfStatement n st
      | .ok (false, st) =>
        match pIsMatch [.WHILE] st with
        | .error e => .error e
        | .ok (true, st) => pWhileStatement n st
        | .ok (false, st) =>
          match pIsMatch [.PRINT] st with
          | .error e => .error e
          | .ok (true, st) => pPrintStatement n st
          | .ok (false, st) =>
            match pIsMatch [.LEFT_BRACE] st with
            | .error e => .error e
            | .ok (true, st) =>
              match pBlock n st with
              | .error e => .error e
              | .ok (stmts, st) => .ok (Stmt.block stmts, st)
            | .ok (false, st) => pExpressionStatement n st

/-- `Parser::block` (lines 197-213). -/
def pBlock : Nat → PState → Except POut (List Stmt × PState)
  | 0, _ => .error .fuelOut
  | n + 1, st =>
    match pCheck .RIGHT_BRACE st with
    | .error e => .error e
    | .ok c =>
      match pIsAtEnd st with
      | .error e => .error e
      | .ok atEnd =>
        if !c && !atEnd then
          match pDeclaration n st with
          | .error e => .error e
          | .ok (s, st) =>
            match pBlock n st with
            | .error e => .error e
            | .ok (rest, st) => .ok (s :: rest, st)
        else
          match pConsumeP .RIGHT_BRACE "Expect \x7d after block." st with
          | .error e => .error e
          | .ok (_, st) => .ok ([], st)

/-- `Parser::expression_statement` (lines 215-231): NOTE it panics — rather
than returning an error — when the semicolon is missing or the expression
failed to parse. -/
def pExpressionStatement : Nat → PState → Except POut (Stmt × PState)
  | 0, _ => .error .fuelOut
  | n + 1, st =>
    match pExpression n st with
    | .error e => .error e
    | .ok (exprR, st) =>
      match pConsume .SEMICOLON "Expect ; after value." st with
      | .error e => .error e
      | .ok (.error err, _) => .error (.crashed ("parse panic: " ++ err.message))
      | .ok (.ok _, st) =>
        match exprR with
        | .ok e => .ok (Stmt.expression e, st)
        | .error err => .error (.crashed ("parse panic: " ++ err.message))

/-- `Parser::print_statement` (lines 233-249). -/
def pPrintStatement : Nat → PState → Except POut (Stmt × PState)
  | 0, _ => .error .fuelOut
  | n + 1, st =>
    match pExpression n st with
    | .error e => .error e
    | .ok (exprR, st) =>
      match pConsume .SEMICOLON "Expect ; after value." st with
      | .error e => .error e
      | .ok (.error err, _) => .error (.crashed ("parse panic: " ++ err.message))
      | .ok (.ok _, st) =>
        match exprR with
        | .ok e => .ok (Stmt.print e, st)
        | .error _ => .error (.crashed "parse panic: print")

/-- The initializer clause of `Parser::for_statement` (lines 261-269). -/
def pForInit : Nat → PState → Except POut (Option Stmt × PState)
  | 0, _ => .error .fuelOut
  | n + 1, st =>
    match pIsMatch [.SEMICOLON] st with
    | .error e => .error e
    | .ok (true, st) => .ok (none, st)
    | .ok (false, st) =>
      match pIsMatch [.VAR] st with
      | .error e => .error e
      | .ok (true, st) =>
        match pVarDeclaration n st with
        | .error e => .error e
        | .ok (s, st) => .ok (some s, st)
      | .ok (false, st) =>
        match pExpressionStatement n st with
        | .error e => .error e
        | .ok (s, st) => .ok (some s, st)

/-- The condition clause of `Parser::for_statement` (lines 271-275). -/
def pForCond : Nat → PState → Except POut (Option (Except PErr Expr) × PState)
  | 0, _ => .error .fuelOut
  | n + 1, st =>
    match pCheck .SEMICOLON st with
    | .error e => .error e
    | .ok true => .ok (none, st)
    | .ok false =>
      match pExpression n st with
      | .error e => .error e
      | .ok (r, st) => .ok (some r, st)

/-- The increment clause of `Parser::for_statement` (lines 285-289). -/
def pForInc : Nat → PState → Except POut (Option (Except PErr Expr) × PState)
  | 0, _ => .error .fuelOut
  | n + 1, st =>
    match pCheck .RIGHT_PAREN st with
    | .error e => .error e
    | .ok true => .ok (none, st)
    | .ok false =>
      match pExpression n st with
      | .error e => .error e
      | .ok (r, st) => .ok (some r, st)

/-- `Parser::for_statement` (lines 251-340): parse the header clauses and the
body, then assemble — wrap the body in a Block appending the increment (an
`Err` increment is silently dropped by the `if let Some(Ok(..))`), default
the condition to literal `true`, wrap in While, and prepend the initializer
inside a Block. -/
def pForStatement : Nat → PState → Except POut (Stmt × PState)
  | 0, _ => .error .fuelOut
  | n + 1, st =>
    match pConsumeP .LEFT_PAREN "Expect ( after while." st with
    | .error e => .error e
    | .ok (_, st) =>
      match pForInit n st with
      | .error e => .error e
      | .ok (init?, st) =>
        match pForCond n st with
        | .error e => .error e
        | .ok (cond?, st) =>
          match pConsumeP .SEMICOLON "Expect ; after loop condition." st with
          | .error e => .error e
          | .ok (_, st) =>
            match pForInc n st with
            | .error e => .error e
            | .ok (inc?, st) =>
              match pConsumeP .RIGHT_PAREN "Expect ) after for clauses." st with
              | .error e => .error e
              | .ok (_, st) =>
                match pStatement n st with
                | .error e => .error e
                | .ok (body0, st) =>
                  let body1 := match inc? with
                    | some (.ok incExpr) =>
                        Stmt.block [body0, Stmt.expression incExpr]
                    | _ => body0
                  let cond2 : Option (Except PErr Expr) := match cond? with
                    | none => some (.ok (.literal (.boolean true)))
                    | some r => some r
                  match cond2 with
                  | some (.ok condExpr) =>
                    let body2 := Stmt.while_ condExpr body1
                    match init? with
                    | some i => .ok (Stmt.block [i, body2], st)
                    | none => .ok (body2, st)
                  | some (.error e) =>
                      .error (.crashed ("parse panic: " ++ e.message))
                  | none => .error (.crashed "This shouldnt happen")

/-- `Parser::while_statement` (lines 342-367). -/
def pWhileStatement : Nat → PState → Except POut (Stmt × PState)
  | 0, _ => .error .fuelOut
  | n + 1, st =>
    match pConsumeP .LEFT_PAREN "Expect ( after while." st with
    | .error e => .error e
    | .ok (_, st) =>
      match pExpression n st with
      | .error e => .error e
      | .ok (.ok condition, st) =>
        match pConsumeP .RIGHT_PAREN "Expect ) after condition." st with
        | .error e => .error e
        | .ok (_, st) =>
          match pStatement n st with
          | .error e => .error e
          | .ok (body, st) => .ok (Stmt.while_ condition body, st)
      | .ok (.error pe, _) => .error (.crashed ("parse panic: " ++ pe.message))

/-- `Parser::if_statement` (lines 369-400). -/
def pIfStatement : Nat → PState → Except POut (Stmt × PState)
  | 0, _ => .error .fuelOut
  | n + 1, st =>
    match pConsumeP .LEFT_PAREN "Expect ( after if." st with
    | .error e => .error e
    | .ok (_, st) =>
      match pExpression n st with
      | .error e => .error e
      | .ok (.ok condition, st) =>
        match pConsumeP .RIGHT_PAREN "Expect ) after if condition." st with
        | .error e => .error e
        | .ok (_, st) =>
          match pStatement n st with
          | .error e => .error e
          | .ok (thenB, st) =>
            match pIsMatch [.ELSE] st with
            | .error e => .error e
            | .ok (true, st) =>
              match pStatement n st with
              | .error e => .error e
              | .ok (elseB, st) =>
                  .ok (Stmt.if_ condition thenB (some elseB), st)
            | .ok (false, st) => .ok (Stmt.if_ condition thenB none, st)
      | .ok (.error pe, _) => .error (.crashed ("parse panic: " ++ pe.message))

/-- `Parser::expression` (lines 402-404). -/
def pExpression : Nat → PState → Except POut (Except PErr Expr × PState)
  | 0, _ => .error .fuelOut
  | n + 1, st => pAssignment n st

/-- `Parser::assignment` (lines 406-431). -/
def pAssignment : Nat → PState → Except POut (Except PErr Expr × PState)
  | 0, _ => .error .fuelOut
  | n + 1, st =>
    match pOr n st with
    | .error e => .error e
    | .ok (exprR, st) =>
      match pIsMatch [.EQUAL] st with
      | .error e => .error e
      | .ok (true, st) =>
        match pPrevious st with
        | .error e => .error e
        | .ok _equals =>
          match pAssignment n st with
          | .error e => .error e
          | .ok (valueR, st) =>
            match exprR with
            | .ok expression =>
              match valueR with
              | .ok valueExpr =>
                match expression with
                | .variable_ name => .ok (.ok (Expr.assign name valueExpr), st)
                | _ =>
                  match pCurrentError "Invalid assignment target" st with
                  | .error e => .error e
                  | .ok pe => .ok (.error pe, st)
              | .error er => .ok (.error er, st)
            | .error er => .ok (.error er, st)
      | .ok (false, st) => .ok (exprR, st)

/-- `Parser::or` (lines 433-454). -/
def pOr : Nat → PState → Except POut (Except PErr Expr × PState)
  | 0, _ => .error .fuelOut
  | n + 1, st =>
    match pAnd n st with
    | .error e => .error e
    | .ok (.ok e, st) => pOrLoop n e st
    | .ok (.error er, st) => .ok (.error er, st)

def pOrLoop : Nat → Expr → PState → Except POut (Except PErr Expr × PState)
  | 0, _, _ => .error .fuelOut
  | n + 1, acc, st =>
    match pIsMatch [.OR] st with
    | .error e => .error e
    | .ok (true, st) =>
      match pPrevious st with
      | .error e => .error e
      | .ok op =>
        match pAnd n st with
        | .error e => .error e
        | .ok (.ok right, st) => pOrLoop n (Expr.logical acc op right) st
        | .ok (.error er, st) => .ok (.error er, st)
    | .ok (false, st) => .ok (.ok acc, st)

/-- `Parser::and` (lines 456-477). -/
def pAnd : Nat → PState → Except POut (Except PErr Expr × PState)
  | 0, _ => .error .fuelOut
  | n + 1, st =>
    match pEquality n st with
    | .error e => .error e
    | .ok (.ok e, st) => pAndLoop n e st
    | .ok (.error er, st) => .ok (.error er, st)

def pAndLoop : Nat → Expr → PState → Except POut (Except PErr Expr × PState)
  | 0, _, _ => .error .fuelOut
  | n + 1, acc, st =>
    match pIsMatch [.AND] st with
    | .error e => .error e
    | .ok (true, st) =>
      match pPrevious st with
      | .error e => .error e
      | .ok op =>
        match pEquality n st with
        | .error e => .error e
        | .ok (.ok right, st) => pAndLoop n (Expr.logical acc op right) st
        | .ok (.error er, st) => .ok (.error er, st)
    | .ok (false, st) => .ok (.ok acc, st)

/-- `Parser::equality` (lines 479-502). -/
def pEquality : Nat → PState → Except POut (Except PErr Expr × PState)
  | 0, _ => .error .fuelOut
  | n + 1, st =>
    match pComparison n st with
    | .error e => .error e
    | .ok (.ok e, st) => pEqualityLoop n e st
    | .ok (.error er, st) => .ok (.error er, st)

def pEqualityLoop : Nat → Expr → PState → Except POut (Except PErr Expr × PState)
  | 0, _, _ => .error .fuelOut
  | n + 1, acc, st =>
    match pIsMatch [.BANG_EQUAL, .EQUAL_EQUAL] st with
    | .error e => .error e
    | .ok (true, st) =>
      match pPrevious st with
      | .error e => .error e
      | .ok op =>
        match pComparison n st with
        | .error e => .error e
        | .ok (.ok right, st) => pEqualityLoop n (Expr.binary acc op right) st
        | .ok (.error er, st) => .ok (.error er, st)
    | .ok (false, st) => .ok (.ok acc, st)

/-- `Parser::comparison` (lines 504-532). -/
def pComparison : Nat → PState → Except POut (Except PErr Expr × PState)
  | 0, _ => .error .fuelOut
  | n + 1, st =>
    match pTerm n st with
    | .error e => .error e
    | .ok (.ok e, st) => pComparisonLoop n e st
    | .ok (.error er, st) => .ok (.error er, st)

def pComparisonLoop : Nat → Expr → PState →
    Except POut (Except PErr Expr × PState)
  | 0, _, _ => .error .fuelOut
  | n + 1, acc, st =>
    match pIsMatch [.GREATER, .GREATER_EQUAL, .LESS, .LESS_EQUAL] st with
    | .error e => .error e
    | .ok (true, st) =>
      match pPrevious st with
      | .error e => .error e
      | .ok op =>
        match pTerm n st with
        | .error e => .error e
        | .ok (.ok right, st) => pComparisonLoop n (Expr.binary acc op right) st
        | .ok (.error er, st) => .ok (.error er, st)
    | .ok (false, st) => .ok (.ok acc, st)

/-- `Parser::term` (lines 534-557): NOTE the inner `Err(_) => {}` — a failed
right operand is silently dropped and the loop continues. -/
def pTerm : Nat → PState → Except POut (Except PErr Expr × PState)
  | 0, _ => .error .fuelOut
  | n + 1, st =>
    match pFactor n st with
    | .error e => .error e
    | .ok (.ok e, st) => pTermLoop n e st
    | .ok (.error er, st) => .ok (.error er, st)

def pTermLoop : Nat → Expr → PState → Except POut (Except PErr Expr × PState)
  | 0, _, _ => .error .fuelOut
  | n + 1, acc, st =>
    match pIsMatch [.MINUS, .PLUS] st with
    | .error e => .error e
    | .ok (true, st) =>
      match pPrevious st with
      | .error e => .error e
      | .ok op =>
        match pFactor n st with
        | .error e => .error e
        | .ok (.ok right, st) => pTermLoop n (Expr.binary acc op right) st
        | .ok (.error _, st) => pTermLoop n acc st
    | .ok (false, st) => .ok (.ok acc, st)

/-- `Parser::factor` (lines 559-581). -/
def pFactor : Nat → PState → Except POut (Except PErr Expr × PState)
  | 0, _ => .error .fuelOut
  | n + 1, st =>
    match pUnary n st with
    | .error e => .error e
    | .ok (.ok e, st) => pFactorLoop n e st
    | .ok (.error er, st) => .ok (.error er, st)

def pFactorLoop : Nat → Expr → PState → Except POut (Except PErr Expr × PState)
  | 0, _, _ => .error .fuelOut
  | n + 1, acc, st =>
    match pIsMatch [.SLASH, .STAR] st with
    | .error e => .error e
    | .ok (true, st) =>
      match pPrevious st with
      | .error e => .error e
      | .ok op =>
        match pUnary n st with
        | .error e => .error e
        | .ok (.ok right, st) => pFactorLoop n (Expr.binary acc op right) st
        | .ok (.error er, st) => .ok (.error er, st)
    | .ok (false, st) => .ok (.ok acc, st)

/-- `Parser::unary` (lines 583-600). -/
def pUnary : Nat → PState → Except POut (Except PErr Expr × PState)
  | 0, _ => .error .fuelOut
  | n + 1, st =>
    match pIsMatch [.BANG, .MINUS] st with
    | .error e => .error e
    | .ok (true, st) =>
      match pPrevious st with
      | .error e => .error e
      | .ok op =>
        match pUnary n st with
        | .error e => .error e
        | .ok (.ok right, st) => .ok (.ok (Expr.unary op right), st)
        | .ok (.error er, st) => .ok (.error er, st)
    | .ok (false, st) => pCall n st

/-- `Parser::call` (lines 602-620). -/
def pCall : Nat → PState → Except POut (Except PErr Expr × PState)
  | 0, _ => .error .fuelOut
  | n + 1, st =>
    match pPrimary n st with
    | .error e => .error e
    | .ok (.ok e, st) => pCallLoop n e st
    | .ok (.error er, st) => .ok (.error er, st)

def pCallLoop : Nat → Expr → PState → Except POut (Except PErr Expr × PState)
  | 0, _, _ => .error .fuelOut
  | n + 1, acc, st =>
    match pIsMatch [.LEFT_PAREN] st with
    | .error e => .error e
    | .ok (true, st) =>
      match pFinishCall n acc st with
      | .error e => .error e
      | .ok (.ok e2, st) => pCallLoop n e2 st
      | .ok (.error er, st) => .ok (.error er, st)
    | .ok (false, st) => .ok (.ok acc, st)

/-- `Parser::finish_call` (lines 622-656). -/
def pFinishCall : Nat → Expr → PState → Except POut (Except PErr Expr × PState)
  | 0, _, _ => .error .fuelOut
  | n + 1, callee, st =>
    match pCheck .RIGHT_PAREN st with
    | .error e => .error e
    | .ok rp =>
      match (if !rp then pArgsLoop n [] st else .ok (Except.ok [], st)) with
      | .error e => .error e
      | .ok (.error er, st) => .ok (.error er, st)
      | .ok (.ok arguments, st) =>
        match pConsume .RIGHT_PAREN "Expect ) after arguments." st with
        | .error e => .error e
        | .ok (.ok paren, st) =>
            .ok (.ok (Expr.call callee paren arguments), st)
        | .ok (.error er, st) => .ok (.error er, st)

/-- The argument loop of `finish_call` (lines 626-643): returns an error once
255 arguments have been collected. -/
def pArgsLoop : Nat → List Expr → PState →
    Except POut (Except PErr (List Expr) × PState)
  | 0, _, _ => .error .fuelOut
  | n + 1, acc, st =>
    if 255 ≤ acc.length then
      match pCurrentError "Cant have more than 255 arguments" st with
      | .error e => .error e
      | .ok pe => .ok (.error pe, st)
    else
      match pExpression n st with
      | .error e => .error e
      | .ok (.error er, st) => .ok (.error er, st)
      | .ok (.ok ex, st) =>
        match pIsMatch [.COMMA] st with
        | .error e => .error e
        | .ok (true, st) => pArgsLoop n (acc ++ [ex]) st
        | .ok (false, st) => .ok (.ok (acc ++ [ex]), st)

/-- `Parser::primary` (lines 658-705). -/
def pPrimary : Nat → PState → Except POut (Except PErr Expr × PState)
  | 0, _ => .error .fuelOut
  | n + 1, st =>
    match pIsMatch [.FALSE] st with
    | .error e => .error e
    | .ok (true, st) => .ok (.ok (.literal (.boolean false)), st)
    | .ok (false, st) =>
      match pIsMatch [.TRUE] st with
      | .error e => .error e
      | .ok (true, st) => .ok (.ok (.literal (.boolean true)), st)
      | .ok (false, st) =>
        match pIsMatch [.NIL] st with
        | .error e => .error e
        | .ok (true, st) => .ok (.ok (.literal .nil), st)
        | .ok (false, st) =>
          match pIsMatch [.NUMBER, .STRING] st with
          | .error e => .error e
          | .ok (true, st) =>
            match pPrevious st with
            | .error e => .error e
            | .ok prev =>
              match prev.literal with
              | some v => .ok (.ok (.literal v), st)
              | none => .error (.crashed "called Option::unwrap on a None value")
          | .ok (false, st) =>
            match pIsMatch [.IDENTIFIER] st with
            | .error e => .error e
            | .ok (true, st) =>
              match pPrevious st with
              | .error e => .error e
              | .ok prev => .ok (.ok (.variable_ prev), st)
            | .ok (false, st) =>
              match pIsMatch [.LEFT_PAREN] st with
              | .error e => .error e
              | .ok (true, st) =>
                match pExpression n st with
                | .error e => .error e
                | .ok (exprR, st) =>
                  match pConsume .RIGHT_PAREN "Expect ) after expression." st with
                  | .error e => .error e
                  | .ok (.error er, st) => .ok (.error er, st)
                  | .ok (.ok _, st) =>
                    match exprR with
                    | .ok e => .ok (.ok (.grouping e), st)
                    | .error er => .ok (.error er, st)
              | .ok (false, st) =>
                match pCurrentError "this shouldnt happen" st with
                | .error e => .error e
                | .ok pe => .ok (.error pe, st)

end

/-- `Parser::parse` (lines 35-45). -/
def pParse : Nat → PState → Except POut (List Stmt × PState)
  | 0, st =>
    (match pIsAtEnd st with
     | .error e => .error e
     | .ok true => .ok ([], st)
     | .ok false => .error .fuelOut)
  | n + 1, st =>
    match pIsAtEnd st with
    | .error e => .error e
    | .ok true => .ok ([], st)
    | .ok false =>
      match pDeclaration n st with
      | .error e => .error e
      | .ok (d, st) =>
        match pParse n st with
        | .error e => .error e
        | .ok (rest, st) => .ok (d :: rest, st)

/-- `Parser::new` (lines 31-33). -/
def initParser (tokens : List Token) : PState := { current := 0, tokens }

/-- Modelled from the spec (§4.2, "for is desugared into an equivalent while
wrapped in a Block"): the spec-side description of the `for` desugaring, to be
compared with `pForStatement`.  The initializer (when present) precedes the
While inside a Block; the condition defaults to literal `true` when omitted;
the body appends the increment as an expression statement (when present)
inside a Block after the original body. -/
def forDesugarSpec (i : Option Stmt) (c : Option Expr) (inc : Option Expr)
    (b : Stmt) : Stmt :=
  let bodyWithInc := match inc with
    | some e => Stmt.block [b, Stmt.expression e]
    | none => b
  let cond := match c with
    | some e => e
    | none => Expr.literal (Value.boolean true)
  let w := Stmt.while_ cond bodyWithInc
  match i with
  | some s => Stmt.block [s, w]
  | none => w

/-! ## Support definitions for the theorems -/

/-- Executable check of one frame for `StoreWF`. -/
def frameWFB (store : Store) (i : Nat) (f : Frame) : Bool :=
  match f.parent with
  | none => true
  | some p => decide (p < i) && (store.get? p).isSome

/-- Executable check of `StoreWF`. -/
def storeWFB (store : Store) : Bool :=
  (List.range store.length).all fun i =>
    match store.get? i with
    | some f => frameWFB store i f
    | none => true

/-- All characters are single-byte (ASCII). -/
def asciiOnly (src : List Char) : Bool := src.all fun c => c.utf8Size == 1

/-- The source contains no dot character. -/
def noDot (src : List Char) : Bool := src.all fun c => c != '.'

/-- Discriminator used to state C7's amendment. -/
def valueIsDouble : Value → Bool
  | .double _ => true
  | _ => false

/-- Discriminator used to state C7's amendment. -/
def valueIsString : Value → Bool
  | .string _ => true
  | _ => false

/-- The binary arithmetic/comparison operators of §4.5. -/
def arithOps : List TokenType :=
  [.MINUS, .PLUS, .SLASH, .STAR, .GREATER, .GREATER_EQUAL, .LESS, .LESS_EQUAL]

/-! Concrete programs used by the code-bug/counterexample theorems.  Token
objects are written as the scanner would produce them. -/

def tokA : Token := .mk .IDENTIFIER "a" none 1
def tokF : Token := .mk .IDENTIFIER "f" none 1
def tokZ : Token := .mk .IDENTIFIER "z" none 1
def parenTok : Token := .mk .RIGHT_PAREN ")" none 1
def retTok : Token := .mk .RETURN "return" none 1
def minusTok : Token := .mk .MINUS "-" none 1
def plusTok : Token := .mk .PLUS "+" none 1

/-- `var a = "x"; fun f() { print a; } f();` — the closure/capture probe of
C1: with closure semantics it must print `x`. -/
def closureProg : List Stmt :=
  [ .var_ tokA (some (.literal (.string "x"))),
    .function_ tokF [] [.print (.variable_ tokA)],
    .expression (.call (.variable_ tokF) parenTok []) ]

/-- `fun f() { return "v"; } print f();` — the return-value probe of C2:
with return-conversion semantics it must print `v`. -/
def returnProg : List Stmt :=
  [ .function_ tokF [] [.ret retTok (.literal (.string "v"))],
    .print (.call (.variable_ tokF) parenTok []) ]

/-- The statement `-"x";` — unary minus on a String. -/
def unaryCrashStmt : Stmt :=
  .expression (.unary minusTok (.literal (.string "x")))

/-- The statement `if (z) nil;` with `z` unbound — a runtime error inside an
if condition. -/
def ifCrashStmt : Stmt :=
  .if_ (.variable_ tokZ) (.expression (.literal .nil)) none

/-- Token stream of `1` with no trailing semicolon. -/
def missingSemiToks : List Token :=
  [ .mk .NUMBER "1" (some (.double 1)) 1, .mk .EOF "" none 1 ]

/-- `"foo" + nil` as an expression. -/
def strPlusNil : Expr :=
  .binary (.literal (.string "foo")) plusTok (.literal .nil)

/-- Tokens of `for (var i = 0; i < 2; i = i + 1) print i;` with the leading
`for` already consumed (`current = 1`), for C8's witness. -/
def iTok : Token := .mk .IDENTIFIER "i" none 1
def lessTok : Token := .mk .LESS "<" none 1

def forToks : List Token :=
  [ .mk .FOR "for" none 1, .mk .LEFT_PAREN "(" none 1, .mk .VAR "var" none 1,
    iTok, .mk .EQUAL "=" none 1, .mk .NUMBER "0" (some (.double 0)) 1,
    .mk .SEMICOLON ";" none 1,
    iTok, lessTok, .mk .NUMBER "2" (some (.double 2)) 1,
    .mk .SEMICOLON ";" none 1,
    iTok, .mk .EQUAL "=" none 1, iTok, plusTok, .mk .NUMBER "1" (some (.double 1)) 1,
    .mk .RIGHT_PAREN ")" none 1,
    .mk .PRINT "print" none 1, iTok, .mk .SEMICOLON ";" none 1,
    .mk .EOF "" none 1 ]

/-- A two-frame store (global plus one child) used by C5's witness. -/
def witnessStore : Store :=
  [ ⟨[("a", .string "x")], none⟩, ⟨[("b", .double 2)], some 0⟩ ]

/-- A scanner step that leaves `start` alone and moves `current` forward,
staying inside the source. -/
def SStep (src : List Char) (st st' : SState) : Prop :=
  st'.start = st.start ∧ st.current ≤ st'.current ∧ st'.current ≤ src.length

/-- All characters of `src` in positions `[a, b)` are digits. -/
def DigitWindow (src : List Char) (a b : Nat) : Prop :=
  ∀ k, a ≤ k → k < b → ∃ c, src[k]? = some c ∧ isDigitC c = true

/-! ## Lemmas about the environment model -/

theorem mapContains_eq_isSome (m : List (String × Value)) (k : String) :
    mapContains m k = (mapGet m k).isSome := by
  induction m with
  | nil => rfl
  | cons hd tl ih =>
    obtain ⟨k1, v1⟩ := hd
    by_cases h : k1 == k <;> simp [mapContains, mapGet, h, ih]

theorem mapGet_mapInsert_self (m : List (String × Value)) (k : String)
    (v : Value) : mapGet (mapInsert m k v) k = some v := by
  induction m with
  | nil => simp [mapInsert, mapGet]
  | cons hd tl ih =>
    obtain ⟨k1, v1⟩ := hd
    by_cases h : k1 == k <;> simp [mapInsert, mapGet, h, ih]

theorem mapContains_mapInsert_self (m : List (String × Value)) (k : String)
    (v : Value) : mapContains (mapInsert m k v) k = true := by
  rw [mapContains_eq_isSome, mapGet_mapInsert_self]
  rfl

theorem mapContains_mapInsert_of_contains (m : List (String × Value))
    (k : String) (v : Value) (hk : mapContains m k = true) (k2 : String) :
    mapContains (mapInsert m k v) k2 = mapContains m k2 := by
  induction m with
  | nil => simp [mapContains] at hk
  | cons hd tl ih =>
    obtain ⟨k1, v1⟩ := hd
    by_cases h : k1 == k
    · have hkk : k1 = k := by simpa using h
      subst hkk
      by_cases h2 : k1 == k2 <;> simp [mapInsert, mapContains, h2]
    · simp only [mapContains, h, Bool.false_or] at hk
      by_cases h2 : k1 == k2 <;> simp [mapInsert, mapContains, h, h2, ih hk]

theorem get?_set_self (l : Store) (i : Nat) (f g : Frame)
    (h : l.get? i = some f) : (l.set i g).get? i = some g := by
  induction l generalizing i with
  | nil => simp at h
  | cons hd tl ih =>
    cases i with
    | zero => rfl
    | succ j => simpa [List.set] using ih j (by simpa using h)

theorem get?_set_other (l : Store) (i j : Nat) (g : Frame) (h : i ≠ j) :
    (l.set i g).get? j = l.get? j := by
  induction l generalizing i j with
  | nil => simp
  | cons hd tl ih =>
    cases i with
    | zero =>
      cases j with
      | zero => exact absurd rfl h
      | succ j2 => rfl
    | succ i2 =>
      cases j with
      | zero => rfl
      | succ j2 => simpa [List.set] using ih i2 j2 (by omega)

theorem storeWF_of_B (store : Store) (h : storeWFB store = true) :
    StoreWF store := by
  intro i f hf p hp
  have hi : i < store.length := by
    by_contra hge
    rw [List.get?_eq_none.mpr (by omega)] at hf
    exact Option.noConfusion hf
  have := (List.all_eq_true.mp h) i (List.mem_range.mpr hi)
  rw [hf] at this
  simp only [frameWFB, hp, Bool.and_eq_true, decide_eq_true_eq] at this
  exact this

theorem envGetAux_fuel (store : Store) (name : Token) :
    ∀ id fu fu', id < fu → id < fu' →
      envGetAux fu store id name = envGetAux fu' store id name := by
  intro id
  induction id using Nat.strong_induction_on with
  | _ id ih =>
    intro fu fu' h h'
    cases fu with
    | zero => omega
    | succ fu =>
      cases fu' with
      | zero => omega
      | succ fu' =>
        simp only [envGetAux]
        cases hst : store.get? id with
        | none => rfl
        | some f =>
          by_cases hc : mapContains f.values name.lexeme <;>
            simp only [hc, if_true, Bool.false_eq_true, if_false]
          cases hp : f.parent with
          | none => rfl
          | some p =>
            by_cases hlt : p < id <;> simp only [hlt, if_true, if_false]
            exact ih p hlt fu fu' (by omega) (by omega)

theorem envAssignAux_fuel (store : Store) (name : Token) (v : Value) :
    ∀ id fu fu', id < fu → id < fu' →
      envAssignAux fu store id name v = envAssignAux fu' store id name v := by
  intro id
  induction id using Nat.strong_induction_on with
  | _ id ih =>
    intro fu fu' h h'
    cases fu with
    | zero => omega
    | succ fu =>
      cases fu' with
      | zero => omega
      | succ fu' =>
        simp only [envAssignAux]
        cases hst : store.get? id with
        | none => rfl
        | some f =>
          by_cases hc : mapContains f.values name.lexeme <;>
            simp only [hc, if_true, Bool.false_eq_true, if_false]
          cases hp : f.parent with
          | none => rfl
          | some p =>
            by_cases hlt : p < id <;> simp only [hlt, if_true, if_false]
            exact ih p hlt fu fu' (by omega) (by omega)

theorem chainContainsAux_fuel (store : Store) (name : String) :
    ∀ id fu fu', id < fu → id < fu' →
      chainContainsAux fu store id name = chainContainsAux fu' store id name := by
  intro id
  induction id using Nat.strong_induction_on with
  | _ id ih =>
    intro fu fu' h h'
    cases fu with
    | zero => omega
    | succ fu =>
      cases fu' with
      | zero => omega
      | succ fu' =>
        simp only [chainContainsAux]
        cases hst : store.get? id with
        | none => rfl
        | some f =>
          cases hp : f.parent with
          | none => simp [hp]
          | some p =>
            simp only [hp]
            by_cases hlt : p < id <;> simp only [hlt, if_true, if_false]
            rw [ih p hlt fu fu' (by omega) (by omega)]

/-- One-step recursion equation for `envGet`. -/
theorem envGet_eq (store : Store) (id : Nat) (name : Token) :
    envGet store id name =
      match store.get? id with
      | none => .error (.crashed "environment id out of range")
      | some f =>
        if mapContains f.values name.lexeme then
          match mapGet f.values name.lexeme with
          | some v => .ok v
          | none => .error (.crashed "contains_key without value")
        else
          match f.parent with
          | some p =>
              if p < id then envGet store p name
              else .error (.crashed "corrupt environment chain")
          | none =>
              .error (.rt name.ttype ("Undefined variable " ++ name.lexeme)) := by
  show envGetAux (id + 1) store id name = _
  simp only [envGetAux]
  cases hst : store.get? id with
  | none => rfl
  | some f =>
    by_cases hc : mapContains f.values name.lexeme <;>
      simp only [hc, if_true, Bool.false_eq_true, if_false]
    cases hp : f.parent with
    | none => rfl
    | some p =>
      by_cases hlt : p < id <;> simp only [hlt, if_true, if_false]
      exact envGetAux_fuel store name p id (p + 1) hlt (by omega)

/-- One-step recursion equation for `envAssign`. -/
theorem envAssign_eq (store : Store) (id : Nat) (name : Token) (v : Value) :
    envAssign store id name v =
      match store.get? id with
      | none => .error (.crashed "environment id out of range")
      | some f =>
        if mapContains f.values name.lexeme then
          .ok (store.set id { f with values := mapInsert f.values name.lexeme v }, v)
        else
          match f.parent with
          | some p =>
              if p < id then envAssign store p name v
              else .error (.crashed "corrupt environment chain")
          | none =>
              .error (.rt name.ttype ("Undefined variable " ++ name.lexeme)) := by
  show envAssignAux (id + 1) store id name v = _
  simp only [envAssignAux]
  cases hst : store.get? id with
  | none => rfl
  | some f =>
    by_cases hc : mapContains f.values name.lexeme <;>
      simp only [hc, if_true, Bool.false_eq_true, if_false]
    cases hp : f.parent with
    | none => rfl
    | some p =>
      by_cases hlt : p < id <;> simp only [hlt, if_true, if_false]
      exact envAssignAux_fuel store name v p id (p + 1) hlt (by omega)

/-- One-step recursion equation for `chainContains`. -/
theorem chainContains_eq (store : Store) (id : Nat) (name : String) :
    chainContains store id name =
      match store.get? id with
      | none => false
      | some f =>
        (mapContains f.values name ||
          match f.parent with
          | some p => if p < id then chainContains store p name else false
          | none => false) := by
  show chainContainsAux (id + 1) store id name = _
  simp only [chainContainsAux]
  cases hst : store.get? id with
  | none => rfl
  | some f =>
    cases hp : f.parent with
    | none => simp [hp]
    | some p =>
      simp only [hp]
      by_cases hlt : p < id <;> simp only [hlt, if_true, if_false]
      rw [chainContainsAux_fuel store name p id (p + 1) hlt (by omega)]
      rfl

/-- `get` succeeds exactly when some scope in the chain binds the name, and
otherwise fails with the undefined-variable error. -/
theorem envGet_spec (store : Store) (name : Token) (hwf : StoreWF store) :
    ∀ id, (store.get? id).isSome = true →
      (chainContains store id name.lexeme = true →
        ∃ v, envGet store id name = .ok v) ∧
      (chainContains store id name.lexeme = false →
        envGet store id name =
          .error (.rt name.ttype ("Undefined variable " ++ name.lexeme))) := by
  intro id
  induction id using Nat.strong_induction_on with
  | _ id ih =>
    intro hsome
    obtain ⟨f, hf⟩ := Option.isSome_iff_exists.mp hsome
    rw [envGet_eq, chainContains_eq, hf]
    by_cases hc : mapContains f.values name.lexeme
    · have : (mapGet f.values name.lexeme).isSome := by
        rw [← mapContains_eq_isSome, hc]
      obtain ⟨w, hw⟩ := Option.isSome_iff_exists.mp this
      simp [hc, hw]
    · simp only [Bool.not_eq_true] at hc
      cases hp : f.parent with
      | none => simp [hc, hp]
      | some p =>
        obtain ⟨hlt, hps⟩ := hwf id f hf p hp
        simp only [hp, hc, Bool.false_eq_true, if_false, hlt, if_true,
          Bool.false_or]
        exact ih p hlt hps

/-- `assign` fails exactly when no scope binds the name; on success it
returns the assigned value, reaches it by `get`, and changes no binding
domain anywhere (in particular it never creates a binding). -/
theorem envAssign_spec (store : Store) (name : Token) (v : Value)
    (hwf : StoreWF store) :
    ∀ id, (store.get? id).isSome = true →
      (chainContains store id name.lexeme = false →
        envAssign store id name v =
          .error (.rt name.ttype ("Undefined variable " ++ name.lexeme))) ∧
      (chainContains store id name.lexeme = true →
        ∃ store', envAssign store id name v = .ok (store', v) ∧
          store'.length = store.length ∧
          (∀ j g, store.get? j = some g → ∃ g', store'.get? j = some g' ∧
            g'.parent = g.parent ∧
            (∀ m, mapContains g'.values m = mapContains g.values m)) ∧
          envGet store' id name = .ok v) := by
  intro id
  induction id using Nat.strong_induction_on with
  | _ id ih =>
    intro hsome
    obtain ⟨f, hf⟩ := Option.isSome_iff_exists.mp hsome
    rw [envAssign_eq, chainContains_eq, hf]
    by_cases hc : mapContains f.values name.lexeme
    · refine ⟨by simp [hc], fun _ => ?_⟩
      refine ⟨store.set id { f with values := mapInsert f.values name.lexeme v },
        by simp [hc], by simp [List.length_set], ?_, ?_⟩
      · intro j g hj
        by_cases hji : j = id
        · subst hji
          have hfg : g = f := Option.some.inj (hj.symm.trans hf)
          subst hfg
          exact ⟨_, get?_set_self store j g _ hj, rfl,
            fun m => mapContains_mapInsert_of_contains g.values name.lexeme v hc m⟩
        · exact ⟨g, by rw [get?_set_other store id j _ (fun h => hji h.symm), hj],
            rfl, fun _ => rfl⟩
      · rw [envGet_eq, get?_set_self store id f _ hf]
        simp [mapContains_mapInsert_self, mapGet_mapInsert_self]
    · simp only [Bool.not_eq_true] at hc
      cases hp : f.parent with
      | none =>
        refine ⟨fun _ => by simp [hc, hp], fun hcc => ?_⟩
        simp [hc, hp] at hcc
      | some p =>
        obtain ⟨hlt, hps⟩ := hwf id f hf p hp
        simp only [hp, hc, Bool.false_eq_true, if_false, hlt, if_true,
          Bool.false_or]
        obtain ⟨ihFalse, ihTrue⟩ := ih p hlt hps
        refine ⟨ihFalse, fun hcc => ?_⟩
        obtain ⟨store', hass, hlen, hdom, hget⟩ := ihTrue hcc
        refine ⟨store', hass, hlen, hdom, ?_⟩
        obtain ⟨f2, hf2, hpar2, hcont2⟩ := hdom id f hf
        rw [envGet_eq, hf2]
        simp only [hcont2, hpar2, hp, hc, Bool.false_eq_true, if_false,
          hlt, if_true]
        exact hget

/-! ## C5 -/

/-- C5: for every environment chain and every name, `get` and `assign` check
the current scope first and otherwise delegate to the enclosing environment
recursively; they fail with the "Undefined variable" error exactly when no
scope in the chain binds the name; on a hit, `assign` overwrites the existing
binding (observable through `get`) and returns the assigned value, and it
never creates (or removes) a binding in any scope. -/
theorem c5_environment_get_assign
    (store : Store) (id : Nat) (name : Token) (v : Value) (f : Frame)
    (hid : store.get? id = some f) (hwf : StoreWF store) :
    (∀ w, mapGet f.values name.lexeme = some w →
        envGet store id name = .ok w) ∧
    (∀ p, mapContains f.values name.lexeme = false → f.parent = some p →
        envGet store id name = envGet store p name) ∧
    (mapContains f.values name.lexeme = true →
        envAssign store id name v =
          .ok (store.set id { f with values := mapInsert f.values name.lexeme v },
               v)) ∧
    (∀ p, mapContains f.values name.lexeme = false → f.parent = some p →
        envAssign store id name v = envAssign store p name v) ∧
    ((envGet store id name =
        .error (.rt name.ttype ("Undefined variable " ++ name.lexeme))) ↔
      chainContains store id name.lexeme = false) ∧
    ((envAssign store id name v =
        .error (.rt name.ttype ("Undefined variable " ++ name.lexeme))) ↔
      chainContains store id name.lexeme = false) ∧
    (∀ store' w, envAssign store id name v = .ok (store', w) →
        w = v ∧ envGet store' id name = .ok v ∧
        store'.length = store.length ∧
        (∀ j g, store.get? j = some g → ∃ g', store'.get? j = some g' ∧
            g'.parent = g.parent ∧
            (∀ m, mapContains g'.values m = mapContains g.values m))) := by
  have hsome : (store.get? id).isSome = true := by rw [hid]; rfl
  have hget := envGet_spec store name hwf id hsome
  have hass := envAssign_spec store name v hwf id hsome
  refine ⟨?_, ?_, ?_, ?_, ?_, ?_, ?_⟩
  · intro w hw
    rw [envGet_eq, hid]
    have hc : mapContains f.values name.lexeme = true := by
      rw [mapContains_eq_isSome, hw]; rfl
    simp [hc, hw]
  · intro p hc hp
    obtain ⟨hlt, _⟩ := hwf id f hid p hp
    rw [envGet_eq, hid]
    simp [hc, hp, hlt]
  · intro hc
    rw [envAssign_eq, hid]
    simp [hc]
  · intro p hc hp
    obtain ⟨hlt, _⟩ := hwf id f hid p hp
    rw [envAssign_eq, hid]
    simp [hc, hp, hlt]
  · constructor
    · intro herr
      by_contra hcc
      have hct : chainContains store id name.lexeme = true := by
        cases h : chainContains store id name.lexeme with
        | true => rfl
        | false => exact absurd h hcc
      obtain ⟨w, hw⟩ := hget.1 hct
      rw [hw] at herr
      exact Except.noConfusion herr
    · exact hget.2
  · constructor
    · intro herr
      by_contra hcc
      have hct : chainContains store id name.lexeme = true := by
        cases h : chainContains store id name.lexeme with
        | true => rfl
        | false => exact absurd h hcc
      obtain ⟨store', hw, _⟩ := hass.2 hct
      rw [hw] at herr
      exact Except.noConfusion herr
    · exact hass.1
  · intro store' w hok
    have hct : chainContains store id name.lexeme = true := by
      cases h : chainContains store id name.lexeme with
      | true => rfl
      | false =>
        rw [hass.1 h] at hok
        exact Except.noConfusion hok
    obtain ⟨store'', hw, hlen, hdom, hg⟩ := hass.2 hct
    rw [hw] at hok
    obtain ⟨h1, h2⟩ := Prod.mk.injEq _ _ _ _ ▸ Except.ok.inj hok
    subst h1; subst h2
    exact ⟨rfl, hg, hlen, hdom⟩

/-- Witness for C5, on the concrete two-frame chain `witnessStore`: `a` is
bound only in the global frame; lookups from the child delegate there, and
assignment behaves per the claim. -/
theorem c5_environment_get_assign_witness :
    envGet witnessStore 1 tokA = envGet witnessStore 0 tokA ∧
    envAssign witnessStore 1 tokA (.double 5) =
      envAssign witnessStore 0 tokA (.double 5) ∧
    ((envGet witnessStore 1 tokA =
        .error (.rt tokA.ttype ("Undefined variable " ++ tokA.lexeme))) ↔
      chainContains witnessStore 1 tokA.lexeme = false) := by
  have h := c5_environment_get_assign witnessStore 1 tokA (.double 5)
      ⟨[("b", .double 2)], some 0⟩ rfl (storeWF_of_B _ (by decide))
  exact ⟨h.2.1 0 (by decide) rfl, h.2.2.2.1 0 (by decide) rfl, h.2.2.2.2.1⟩

/-! ## C6 -/

/-- C6: executing a Block pushes a fresh child environment parented at the
current one and runs the contained statements in order (conjuncts 1 and 2,
the definitional shape of `visit_block_stmt`/`execute_block`), and the loop
restores the prior environment id as current both on normal completion and
when a statement fails with a runtime error or signals a function return
(conjunct 3); the pop touches only the current-environment cursor.  A Rust
panic, modelled by `crashed`, aborts the process and bypasses the restore. -/
theorem c6_block_push_and_restore :
    (∀ (n : Nat) (stmts : List Stmt) (st : IState),
      execute (n + 1) (.block stmts) st =
        executeBlock n stmts ⟨[], some st.envId⟩ st) ∧
    (∀ (n : Nat) (stmts : List Stmt) (frame : Frame) (st : IState),
      executeBlock (n + 1) stmts frame st =
        blockLoop n st.envId stmts
          { st with store := st.store ++ [frame], envId := st.store.length }) ∧
    (∀ (n prev : Nat) (stmts : List Stmt) (st : IState) r st',
      blockLoop n prev stmts st = (r, st') →
      (r = .ok () ∨ (∃ op msg, r = .error (.rt op msg)) ∨
        (∃ w, r = .error (.retSig w))) →
      st'.envId = prev) := by
  refine ⟨fun n stmts st => rfl, fun n stmts frame st => rfl, ?_⟩
  intro n prev
  induction n with
  | zero =>
    intro stmts st r st' h hr
    cases stmts with
    | nil =>
      obtain ⟨h1, h2⟩ := Prod.mk.injEq _ _ _ _ ▸ h
      rw [← h2]
    | cons s rest =>
      obtain ⟨h1, h2⟩ := Prod.mk.injEq _ _ _ _ ▸ h
      subst h1
      rcases hr with h3 | ⟨op, msg, h3⟩ | ⟨w, h3⟩ <;> simp at h3
  | succ n ih =>
    intro stmts st r st' h hr
    cases stmts with
    | nil =>
      obtain ⟨h1, h2⟩ := Prod.mk.injEq _ _ _ _ ▸ h
      rw [← h2]
    | cons s rest =>
      simp only [blockLoop] at h
      rcases hex : execute n s st with ⟨res, st1⟩
      rw [hex] at h
      cases res with
      | ok u => exact ih rest st1 r st' h hr
      | error e =>
        cases e with
        | rt op msg =>
          obtain ⟨h1, h2⟩ := Prod.mk.injEq _ _ _ _ ▸ h
          rw [← h2]
        | retSig w =>
          obtain ⟨h1, h2⟩ := Prod.mk.injEq _ _ _ _ ▸ h
          rw [← h2]
        | crashed m =>
          obtain ⟨h1, h2⟩ := Prod.mk.injEq _ _ _ _ ▸ h
          subst h1
          rcases hr with h3 | ⟨op, msg, h3⟩ | ⟨w, h3⟩ <;> simp at h3
        | fuelOut =>
          obtain ⟨h1, h2⟩ := Prod.mk.injEq _ _ _ _ ▸ h
          subst h1
          rcases hr with h3 | ⟨op, msg, h3⟩ | ⟨w, h3⟩ <;> simp at h3

/-- Witness for C6: a concrete one-statement block run from the initial
interpreter state ends with the prior environment id (0) restored. -/
theorem c6_block_push_and_restore_witness :
    ({ store := initInterp.store ++ [⟨[], some 0⟩], globalId := 0, envId := 0,
       output := [] } : IState).envId = 0 :=
  c6_block_push_and_restore.2.2 4 0 [.expression (.literal .nil)]
    { store := initInterp.store ++ [⟨[], some 0⟩], globalId := 0, envId := 1,
      output := [] }
    (.ok ())
    { store := initInterp.store ++ [⟨[], some 0⟩], globalId := 0, envId := 0,
      output := [] }
    rfl (Or.inl rfl)

/-! ## C1, C2, C3 (code bugs, demonstrated at their failing inputs) -/

/-- C1 is violated by the code: running
`var a = "x"; fun f() { print a; } f();` completes "successfully" with NO
output.  `visit_function_stmt` does capture the defining environment, but
`Callable::call` (src/token.rs line 180) creates `Environment::new(None)` —
parent `none`, not the captured closure — so the body cannot see `a`
(and the resulting undefined-variable error is itself swallowed, see C9).
Under the claim the program would print `x`. -/
theorem c1_call_env_not_parented_at_closure :
    (interpret 30 closureProg initInterp).1 = .ok () ∧
    (interpret 30 closureProg initInterp).2.output = [] :=
  ⟨rfl, rfl⟩

/-- C2 is half-right: `visit_return_stmt` does signal the distinctive
`InterpreterError::Return` channel, distinct from `RuntimeError` (second
conjunct).  But the claim's "caught and converted into that call's result
value" is violated: `Callable::call` ignores `execute_block`'s result and
always produces Nil, so `fun f() { return "v"; } print f();` prints `Nil`
(first conjunct), not `v`. -/
theorem c2_return_signal_not_converted :
    (interpret 30 returnProg initInterp).2.output = ["Nil"] ∧
    (execute 10 (.ret retTok (.literal (.string "v"))) initInterp).1 =
      .error (.retSig (.string "v")) :=
  ⟨rfl, rfl⟩

/-- C3 is violated by the code: each of the three listed conditions is a Rust
panic (process abort), not a reported error result — unary `-` on a String
panics `Nope!` (`visit_unary_expr`), a runtime error inside an if condition
hits `.unwrap()` (`visit_if_stmt`), and a missing semicolon panics in
`Parser::expression_statement`. -/
theorem c3_errors_abort_the_process :
    (execute 10 unaryCrashStmt initInterp).1 = .error (.crashed "Nope!") ∧
    (execute 10 ifCrashStmt initInterp).1 =
      .error (.crashed "called Result::unwrap() on an Err value") ∧
    pDeclaration 30 (initParser missingSemiToks) =
      .error (.crashed "parse panic: Expect ; after value.") :=
  ⟨rfl, rfl, rfl⟩

/-! ## C7 -/

/-- Counterexample to C7 as stated: `"foo" + nil` is a binary `+` with
mismatched, non-numeric operands, yet it evaluates successfully to the
String `"fooNil"` instead of failing with a runtime type error —
`visit_binary_expr` concatenates a String left operand with the `Display`
rendering of ANY right operand. -/
theorem c7_counterexample_string_plus_nil :
    (evaluate 2 strPlusNil initInterp).1 = .ok (.string "fooNil") :=
  rfl

/-- C7 amended: `+` on two Strings concatenates, and `+` is the only
operator overloaded for a String LEFT operand — but `+` with a String left
operand succeeds for EVERY right operand, concatenating its rendering
(so only mismatches with a Double or Nil/Boolean/Callable left operand
fail); Double-left arithmetic/comparison requires a Double right operand
and otherwise fails with a type error naming the operator; every left
operand that is neither a Double nor a String (Nil, Boolean, or Callable —
the catch-all `_` arm of `visit_binary_expr`, interpreter.rs lines 246-251)
fails for every arithmetic/comparison operator. -/
theorem c7_amended_binary_dispatch (s t : String) (q r : Rat) (v : Value)
    (tok : Token) (st : IState) :
    (tok.ttype = .PLUS →
      evaluate 2 (.binary (.literal (.string s)) tok (.literal (.string t))) st
        = (.ok (.string (s ++ t)), st)) ∧
    (∀ rs, tok.ttype = .PLUS → renderValue v = some rs →
      evaluate 2 (.binary (.literal (.string s)) tok (.literal v)) st
        = (.ok (.string (s ++ rs)), st)) ∧
    (tok.ttype ∈ arithOps → ¬tok.ttype = .PLUS →
      evaluate 2 (.binary (.literal (.string s)) tok (.literal v)) st
        = (.error (.rt tok.ttype "Cannot perform this operation on a string"),
           st)) ∧
    (tok.ttype ∈ arithOps →
      ∃ w, evaluate 2 (.binary (.literal (.double q)) tok (.literal (.double r)))
        st = (.ok w, st)) ∧
    (tok.ttype ∈ arithOps → valueIsDouble v = false →
      ∃ msg, evaluate 2 (.binary (.literal (.double q)) tok (.literal v)) st
        = (.error (.rt tok.ttype msg), st)) ∧
    (∀ u : Value, tok.ttype ∈ arithOps →
      valueIsDouble u = false → valueIsString u = false →
      evaluate 2 (.binary (.literal u) tok (.literal v)) st
        = (.error (.rt tok.ttype "Cannot perform this operation on this type"),
           st)) := by
  cases tok with
  | mk tt lex lit line =>
    simp only [Token.ttype]
    refine ⟨?_, ?_, ?_, ?_, ?_, ?_⟩
    · intro h; subst h; rfl
    · intro rs h hrs
      subst h
      simp [evaluate, hrs, Token.ttype]
    · intro hmem hne
      fin_cases hmem <;> first | exact absurd rfl hne | rfl
    · intro hmem
      fin_cases hmem <;> exact ⟨_, rfl⟩
    · intro hmem hv
      cases v with
      | double q2 => simp [valueIsDouble] at hv
      | boolean b => fin_cases hmem <;> exact ⟨_, rfl⟩
      | string s2 => fin_cases hmem <;> exact ⟨_, rfl⟩
      | nil => fin_cases hmem <;> exact ⟨_, rfl⟩
      | callable c => fin_cases hmem <;> exact ⟨_, rfl⟩
    · intro u hmem hd hs
      cases u with
      | double q2 => simp [valueIsDouble] at hd
      | string s2 => simp [valueIsString] at hs
      | boolean b => fin_cases hmem <;> rfl
      | nil => fin_cases hmem <;> rfl
      | callable c => fin_cases hmem <;> rfl

/-- Witness for C7's amendment at concrete inputs: concatenation, a failing
String subtraction, a mixed-operand failure, a successful Double sum, and the
catch-all failures for Boolean-, Nil- and Callable-left operands. -/
theorem c7_amended_binary_dispatch_witness :
    (evaluate 2 (.binary (.literal (.string "a")) plusTok (.literal (.string "b")))
      initInterp = (.ok (.string "ab"), initInterp)) ∧
    (evaluate 2 (.binary (.literal (.string "a")) minusTok (.literal (.string "b")))
      initInterp
      = (.error (.rt .MINUS "Cannot perform this operation on a string"),
         initInterp)) ∧
    (∃ msg, evaluate 2 (.binary (.literal (.double 1)) minusTok
        (.literal (.string "b"))) initInterp
      = (.error (.rt .MINUS msg), initInterp)) ∧
    (∃ w, evaluate 2 (.binary (.literal (.double 1)) plusTok
        (.literal (.double 2))) initInterp = (.ok w, initInterp)) ∧
    (evaluate 2 (.binary (.literal (.boolean true)) minusTok
        (.literal (.double 1))) initInterp
      = (.error (.rt .MINUS "Cannot perform this operation on this type"),
         initInterp)) ∧
    (evaluate 2 (.binary (.literal .nil) plusTok (.literal (.double 1)))
        initInterp
      = (.error (.rt .PLUS "Cannot perform this operation on this type"),
         initInterp)) ∧
    (evaluate 2 (.binary (.literal (.callable (.native 0 "<native fn>"))) plusTok
        (.literal (.string "b"))) initInterp
      = (.error (.rt .PLUS "Cannot perform this operation on this type"),
         initInterp)) := by
  refine ⟨?_, ?_, ?_, ?_, ?_, ?_, ?_⟩
  · exact (c7_amended_binary_dispatch "a" "b" 0 0 .nil plusTok initInterp).1 rfl
  · exact (c7_amended_binary_dispatch "a" "b" 0 0 (.string "b") minusTok
      initInterp).2.2.1 (by simp [arithOps, minusTok, Token.ttype])
      (by simp [minusTok, Token.ttype])
  · exact (c7_amended_binary_dispatch "a" "b" 1 0 (.string "b") minusTok
      initInterp).2.2.2.2.1 (by simp [arithOps, minusTok, Token.ttype]) rfl
  · exact (c7_amended_binary_dispatch "a" "b" 1 2 .nil plusTok
      initInterp).2.2.2.1 (by simp [arithOps, plusTok, Token.ttype])
  · exact (c7_amended_binary_dispatch "a" "b" 0 0 (.double 1) minusTok
      initInterp).2.2.2.2.2 (.boolean true)
      (by simp [arithOps, minusTok, Token.ttype]) rfl rfl
  · exact (c7_amended_binary_dispatch "a" "b" 0 0 (.double 1) plusTok
      initInterp).2.2.2.2.2 .nil
      (by simp [arithOps, plusTok, Token.ttype]) rfl rfl
  · exact (c7_amended_binary_dispatch "a" "b" 0 0 (.string "b") plusTok
      initInterp).2.2.2.2.2 (.callable (.native 0 "<native fn>"))
      (by simp [arithOps, plusTok, Token.ttype]) rfl rfl

/-! ## C9 -/

/-- C9: calling a user-defined Function always evaluates to Nil —
`Callable::call` ignores the `StatementResult` of `execute_block` — except
when the body (or the call machinery itself) panics or the model runs out of
fuel.  In particular the result is NEVER a runtime error or a return signal:
a runtime error raised inside the body does not propagate to the caller. -/
theorem c9_call_always_nil (n : Nat) (d : Stmt) (cl : Nat)
    (args : List Value) (st : IState) :
    (callCallable n (.func d cl) args st).1 = .ok .nil ∨
    (∃ m, (callCallable n (.func d cl) args st).1 = .error (.crashed m)) ∨
    (callCallable n (.func d cl) args st).1 = .error .fuelOut := by
  cases n with
  | zero => exact .inr (.inr rfl)
  | succ n =>
    cases d with
    | function_ name params body =>
      simp only [callCallable]
      cases hb : bindParams params args 0 [] with
      | none => exact .inr (.inl ⟨"index out of bounds", rfl⟩)
      | some fv =>
        rcases hex : executeBlock n body ⟨fv, none⟩ st with ⟨res, st1⟩
        simp only [hex]
        cases res with
        | ok u => exact .inl rfl
        | error e =>
          cases e with
          | rt op msg => exact .inl rfl
          | retSig w => exact .inl rfl
          | crashed m => exact .inr (.inl ⟨m, rfl⟩)
          | fuelOut => exact .inr (.inr rfl)
    | block stmts => exact .inr (.inl ⟨"Nope!", rfl⟩)
    | expression e => exact .inr (.inl ⟨"Nope!", rfl⟩)
    | print e => exact .inr (.inl ⟨"Nope!", rfl⟩)
    | var_ nm init? => exact .inr (.inl ⟨"Nope!", rfl⟩)
    | if_ c tb eb => exact .inr (.inl ⟨"Nope!", rfl⟩)
    | while_ c b => exact .inr (.inl ⟨"Nope!", rfl⟩)
    | ret k v2 => exact .inr (.inl ⟨"Nope!", rfl⟩)

/-! ## C4 (code bug, demonstrated at the failing inputs) -/

/-- C4 is violated by the code: both an unterminated string (`"ab` at
end of input) and an unrecognized character (`@`) are scanned SILENTLY —
the token stream is just the EOF token, no error is reported anywhere, and
the scanner has no error-reporting path at all (`Scanner::string` has a bare
`// TODO ERROR` return and `scan_token` an empty `// error` else branch).
Scanning does continue past the offending character, as the claim says. -/
theorem c4_scan_errors_silently_dropped :
    scanSource 10 "\"ab" =
      .ok ([Token.mk .EOF "" none 1],
        { start := 0, current := 3, line := 1,
          tokens := [Token.mk .EOF "" none 1] }) ∧
    scanSource 10 "@" =
      .ok ([Token.mk .EOF "" none 1],
        { start := 0, current := 1, line := 1,
          tokens := [Token.mk .EOF "" none 1] }) ∧
    scanSource 10 "@+" =
      .ok ([Token.mk .PLUS "+" none 1, Token.mk .EOF "" none 1],
        { start := 1, current := 2, line := 1,
          tokens := [Token.mk .PLUS "+" none 1, Token.mk .EOF "" none 1] }) :=
  ⟨rfl, rfl, rfl⟩

/-! ## C8 -/

/-- C8: `for_statement` produces no dedicated For node (the `Stmt` union has
none): whenever the header clauses and the body parse successfully, its
result is exactly the spec-side desugaring `forDesugarSpec` — the
initializer (when present) precedes, inside a Block, a While whose condition
is the parsed condition (literal `true` when omitted) and whose body appends
the increment as an expression statement (when present) after the original
body. -/
theorem c8_for_desugars_to_while (n : Nat)
    (st0 st1 st2 st3 st4 st5 st6 st7 : PState)
    (tk1 tk2 tk3 : Token) (init? : Option Stmt) (condE incE : Option Expr)
    (body : Stmt)
    (h1 : pConsumeP .LEFT_PAREN "Expect ( after while." st0 = .ok (tk1, st1))
    (h2 : pForInit n st1 = .ok (init?, st2))
    (h3 : pForCond n st2 = .ok (condE.map Except.ok, st3))
    (h4 : pConsumeP .SEMICOLON "Expect ; after loop condition." st3 =
      .ok (tk2, st4))
    (h5 : pForInc n st4 = .ok (incE.map Except.ok, st5))
    (h6 : pConsumeP .RIGHT_PAREN "Expect ) after for clauses." st5 =
      .ok (tk3, st6))
    (h7 : pStatement n st6 = .ok (body, st7)) :
    pForStatement (n + 1) st0 =
      .ok (forDesugarSpec init? condE incE body, st7) := by
  cases condE <;> cases incE <;> cases init? <;>
    simp only [Option.map] at h3 h5 <;>
    simp [pForStatement, h1, h2, h3, h4, h5, h6, h7, forDesugarSpec]

/-- Witness for C8 on the tokens of
`for (var i = 0; i < 2; i = i + 1) print i;` (with `for` already consumed):
the parse result is the desugared while program. -/
theorem c8_for_desugars_to_while_witness :
    pForStatement 26 ⟨1, forToks⟩ =
      .ok (forDesugarSpec
        (some (.var_ iTok (some (.literal (.double 0)))))
        (some (.binary (.variable_ iTok) lessTok (.literal (.double 2))))
        (some (.assign iTok
          (.binary (.variable_ iTok) plusTok (.literal (.double 1)))))
        (.print (.variable_ iTok)), ⟨20, forToks⟩) :=
  c8_for_desugars_to_while 25 ⟨1, forToks⟩ ⟨2, forToks⟩ ⟨7, forToks⟩
    ⟨10, forToks⟩ ⟨11, forToks⟩ ⟨16, forToks⟩ ⟨17, forToks⟩ ⟨20, forToks⟩
    (.mk .LEFT_PAREN "(" none 1) (.mk .SEMICOLON ";" none 1)
    (.mk .RIGHT_PAREN ")" none 1)
    (some (.var_ iTok (some (.literal (.double 0)))))
    (some (.binary (.variable_ iTok) lessTok (.literal (.double 2))))
    (some (.assign iTok
      (.binary (.variable_ iTok) plusTok (.literal (.double 1)))))
    (.print (.variable_ iTok))
    rfl rfl rfl rfl rfl rfl rfl

/-! ## Scanner lemmas for C10 -/

theorem byteLen_ascii (src : List Char) (h : asciiOnly src = true) :
    byteLen src = src.length := by
  induction src with
  | nil => rfl
  | cons c cs ih =>
    simp only [asciiOnly, List.all_cons, Bool.and_eq_true, beq_iff_eq] at h
    simp only [byteLen, List.map_cons, List.sum_cons, List.length_cons, h.1]
    have := ih (by simp [asciiOnly, h.2])
    simp only [byteLen] at this
    omega

theorem asciiOnly_drop (src : List Char) (a : Nat)
    (h : asciiOnly src = true) : asciiOnly (src.drop a) = true := by
  simp only [asciiOnly, List.all_eq_true] at h ⊢
  exact fun c hc => h c (List.mem_of_mem_drop hc)

theorem dropBytes_ascii (src : List Char) (h : asciiOnly src = true) :
    ∀ a, a ≤ src.length → dropBytes src a = some (src.drop a) := by
  induction src with
  | nil =>
    intro a ha
    have : a = 0 := by simpa using ha
    subst this
    rfl
  | cons c cs ih =>
    intro a ha
    cases a with
    | zero => rfl
    | succ a2 =>
      simp only [asciiOnly, List.all_cons, Bool.and_eq_true, beq_iff_eq] at h
      simp only [dropBytes, h.1]
      rw [if_pos (by omega)]
      have : a2 + 1 - 1 = a2 := by omega
      rw [this]
      exact ih (by simp [asciiOnly, h.2]) a2 (by simpa using ha)

theorem takeBytes_ascii (src : List Char) (h : asciiOnly src = true) :
    ∀ b, b ≤ src.length → takeBytes src b = some (src.take b) := by
  induction src with
  | nil =>
    intro b hb
    have : b = 0 := by simpa using hb
    subst this
    rfl
  | cons c cs ih =>
    intro b hb
    cases b with
    | zero => rfl
    | succ b2 =>
      simp only [asciiOnly, List.all_cons, Bool.and_eq_true, beq_iff_eq] at h
      simp only [takeBytes, h.1]
      rw [if_pos (by omega)]
      have : b2 + 1 - 1 = b2 := by omega
      rw [this, ih (by simp [asciiOnly, h.2]) b2 (by simpa using hb)]
      rfl

theorem sliceBytes_ascii (src : List Char) (a b : Nat)
    (h : asciiOnly src = true) (hab : a ≤ b) (hb : b ≤ src.length) :
    sliceBytes src a b = some ((src.drop a).take (b - a)) := by
  simp only [sliceBytes, if_pos hab]
  rw [dropBytes_ascii src h a (by omega)]
  show takeBytes (src.drop a) (b - a) = _
  rw [takeBytes_ascii (src.drop a) (asciiOnly_drop src a h) (b - a)
    (by simp [List.length_drop]; omega)]

theorem currentString_ascii (src : List Char) (st : SState)
    (h : asciiOnly src = true) (hab : st.start ≤ st.current)
    (hb : st.current ≤ src.length) :
    currentString src st =
      .ok ((src.drop st.start).take (st.current - st.start)) := by
  simp only [currentString, sliceBytes_ascii src st.start st.current h hab hb]

theorem addToken_ascii (src : List Char) (st : SState) (tt : TokenType)
    (lit : Option Value) (h : asciiOnly src = true)
    (hab : st.start ≤ st.current) (hb : st.current ≤ src.length) :
    addToken src tt lit st =
      .ok { st with tokens := st.tokens ++
        [Token.mk tt
          (String.mk ((src.drop st.start).take (st.current - st.start)))
          lit st.line] } := by
  simp only [addToken, currentString_ascii src st h hab hb, Bind.bind,
    Except.bind]

theorem isAtEnd_ascii_true (src : List Char) (cur : Nat)
    (h : asciiOnly src = true) (hge : src.length ≤ cur) :
    isAtEnd src cur = true := by
  simp [isAtEnd, byteLen_ascii src h, hge]

theorem isAtEnd_ascii_false (src : List Char) (cur : Nat)
    (h : asciiOnly src = true) (hlt : cur < src.length) :
    isAtEnd src cur = false := by
  simp [isAtEnd, byteLen_ascii src h]
  omega

theorem get?_some_of_lt (src : List Char) (cur : Nat)
    (hlt : cur < src.length) : ∃ c, src[cur]? = some c := by
  cases hg : src[cur]? with
  | some c => exact ⟨c, rfl⟩
  | none =>
    rw [List.getElem?_eq_none_iff] at hg
    omega

theorem peekS_at_end (src : List Char) (st : SState)
    (h : asciiOnly src = true) (hge : src.length ≤ st.current) :
    peekS src st = .ok '\x00' := by
  simp [peekS, isAtEnd_ascii_true src st.current h hge]

theorem peekS_of_get (src : List Char) (st : SState) (c : Char)
    (h : asciiOnly src = true) (hlt : st.current < src.length)
    (hc : src[st.current]? = some c) : peekS src st = .ok c := by
  simp [peekS, isAtEnd_ascii_false src st.current h hlt, currentChar, hc]

theorem advanceS_of_get (src : List Char) (st : SState) (c : Char)
    (hc : src[st.current]? = some c) :
    advanceS src st = .ok (c, { st with current := st.current + 1 }) := by
  simp [advanceS, currentChar, hc, Bind.bind, Except.bind]

theorem isMatchS_ascii (src : List Char) (ch : Char) (st : SState)
    (h : asciiOnly src = true) (hb : st.current ≤ src.length) :
    ∃ b st', isMatchS src ch st = .ok (b, st') ∧ st'.start = st.start ∧
      st'.line = st.line ∧ st'.tokens = st.tokens ∧
      st.current ≤ st'.current ∧ st'.current ≤ src.length := by
  by_cases hend : src.length ≤ st.current
  · refine ⟨false, st, ?_, rfl, rfl, rfl, le_refl _, hb⟩
    simp [isMatchS, isAtEnd_ascii_true src st.current h hend]
  · have hlt : st.current < src.length := by omega
    obtain ⟨c, hc⟩ := get?_some_of_lt src st.current hlt
    by_cases hcc : ch != c
    · refine ⟨false, st, ?_, rfl, rfl, rfl, le_refl _, hb⟩
      simp [isMatchS, isAtEnd_ascii_false src st.current h hlt, currentChar,
        hc, Bind.bind, Except.bind, hcc]
    · refine ⟨true, { st with current := st.current + 1 }, ?_, rfl, rfl, rfl,
        by dsimp only; omega, by dsimp only; omega⟩
      simp only [bne, Bool.not_eq_true'] at hcc
      simp [isMatchS, isAtEnd_ascii_false src st.current h hlt, currentChar,
        hc, Bind.bind, Except.bind, bne, hcc]

theorem commentLoop_ok (src : List Char) (h : asciiOnly src = true) :
    ∀ n st, st.current ≤ src.length → src.length - st.current < n →
      ∃ st', commentLoop n src st = .ok st' ∧ st'.start = st.start ∧
        st'.tokens = st.tokens ∧ st.current ≤ st'.current ∧
        st'.current ≤ src.length := by
  intro n
  induction n with
  | zero => intro st hb hn; omega
  | succ m ih =>
    intro st hb hn
    by_cases hend : src.length ≤ st.current
    · refine ⟨st, ?_, rfl, rfl, le_refl _, hb⟩
      simp [commentLoop, peekS_at_end src st h hend, Bind.bind, Except.bind,
        isAtEnd_ascii_true src st.current h hend]
    · have hlt : st.current < src.length := by omega
      obtain ⟨c, hc⟩ := get?_some_of_lt src st.current hlt
      by_cases hnl : c == '\n'
      · refine ⟨st, ?_, rfl, rfl, le_refl _, hb⟩
        simp [commentLoop, peekS_of_get src st c h hlt hc, Bind.bind,
          Except.bind, hnl]
      · obtain ⟨st', hst', hs, ht, hcur, hcur2⟩ :=
          ih { st with current := st.current + 1 } (by dsimp only; omega)
            (by dsimp only; omega)
        refine ⟨st', ?_, hs, ht, by dsimp only at hcur; omega, hcur2⟩
        simp [commentLoop, peekS_of_get src st c h hlt hc, Bind.bind,
          Except.bind, hnl, isAtEnd_ascii_false src st.current h hlt,
          advanceS_of_get src st c hc, hst']

theorem stringLoop_ok (src : List Char) (h : asciiOnly src = true) :
    ∀ n st, st.current ≤ src.length → src.length - st.current < n →
      ∃ st', stringLoop n src st = .ok st' ∧ st'.start = st.start ∧
        st'.tokens = st.tokens ∧ st.current ≤ st'.current ∧
        st'.current ≤ src.length := by
  intro n
  induction n with
  | zero => intro st hb hn; omega
  | succ m ih =>
    intro st hb hn
    by_cases hend : src.length ≤ st.current
    · refine ⟨st, ?_, rfl, rfl, le_refl _, hb⟩
      simp [stringLoop, peekS_at_end src st h hend, Bind.bind, Except.bind,
        isAtEnd_ascii_true src st.current h hend]
    · have hlt : st.current < src.length := by omega
      obtain ⟨c, hc⟩ := get?_some_of_lt src st.current hlt
      by_cases hq : c == '"'
      · refine ⟨st, ?_, rfl, rfl, le_refl _, hb⟩
        simp [stringLoop, peekS_of_get src st c h hlt hc, Bind.bind,
          Except.bind, hq]
      · by_cases hnl : c == '\n'
        · obtain ⟨st', hst', hs, ht, hcur, hcur2⟩ :=
            ih { st with line := st.line + 1, current := st.current + 1 }
              (by dsimp only; omega) (by dsimp only; omega)
          refine ⟨st', ?_, hs, ht, by dsimp only at hcur; omega, hcur2⟩
          simp [stringLoop, peekS_of_get src st c h hlt hc, Bind.bind,
            Except.bind, hq, hnl, isAtEnd_ascii_false src st.current h hlt,
            advanceS_of_get src { st with line := st.line + 1 } c hc, hst']
        · obtain ⟨st', hst', hs, ht, hcur, hcur2⟩ :=
            ih { st with current := st.current + 1 }
              (by dsimp only; omega) (by dsimp only; omega)
          refine ⟨st', ?_, hs, ht, by dsimp only at hcur; omega, hcur2⟩
          simp [stringLoop, peekS_of_get src st c h hlt hc, Bind.bind,
            Except.bind, hq, hnl, isAtEnd_ascii_false src st.current h hlt,
            advanceS_of_get src st c hc, hst']

theorem digitLoop_ok (src : List Char) (h : asciiOnly src = true) :
    ∀ n st, st.current ≤ src.length → src.length - st.current < n →
      DigitWindow src st.start st.current →
      ∃ st', digitLoop n src st = .ok st' ∧ st'.start = st.start ∧
        st'.tokens = st.tokens ∧ st'.line = st.line ∧
        st.current ≤ st'.current ∧ st'.current ≤ src.length ∧
        DigitWindow src st'.start st'.current := by
  intro n
  induction n with
  | zero => intro st hb hn _; omega
  | succ m ih =>
    intro st hb hn hw
    by_cases hend : src.length ≤ st.current
    · refine ⟨st, ?_, rfl, rfl, rfl, le_refl _, hb, hw⟩
      simp [digitLoop, peekS_at_end src st h hend, Bind.bind, Except.bind,
        isDigitC]
    · have hlt : st.current < src.length := by omega
      obtain ⟨c, hc⟩ := get?_some_of_lt src st.current hlt
      by_cases hd : isDigitC c
      · have hw2 : DigitWindow src st.start (st.current + 1) := by
          intro k hk1 hk2
          by_cases hke : k = st.current
          · subst hke; exact ⟨c, hc, hd⟩
          · exact hw k hk1 (by omega)
        obtain ⟨st', hst', hs, ht, hl, hcur, hcur2, hw'⟩ :=
          ih { st with current := st.current + 1 }
            (by dsimp only; omega) (by dsimp only; omega)
            (by dsimp only; exact hw2)
        refine ⟨st', ?_, hs, ht, hl, by dsimp only at hcur; omega, hcur2, ?_⟩
        · simp [digitLoop, peekS_of_get src st c h hlt hc, Bind.bind,
            Except.bind, hd, advanceS_of_get src st c hc, hst']
        · simpa using hw'
      · refine ⟨st, ?_, rfl, rfl, rfl, le_refl _, hb, hw⟩
        simp [digitLoop, peekS_of_get src st c h hlt hc, Bind.bind,
          Except.bind, hd]

theorem identLoop_ok (src : List Char) (h : asciiOnly src = true) :
    ∀ n st, st.current ≤ src.length → src.length - st.current < n →
      ∃ st', identLoop n src st = .ok st' ∧ st'.start = st.start ∧
        st'.tokens = st.tokens ∧ st'.line = st.line ∧
        st.current ≤ st'.current ∧ st'.current ≤ src.length := by
  intro n
  induction n with
  | zero => intro st hb hn; omega
  | succ m ih =>
    intro st hb hn
    by_cases hend : src.length ≤ st.current
    · refine ⟨st, ?_, rfl, rfl, rfl, le_refl _, hb⟩
      simp [identLoop, peekS_at_end src st h hend, Bind.bind, Except.bind,
        isAlphaNumericC, isDigitC, isAlphaC]
    · have hlt : st.current < src.length := by omega
      obtain ⟨c, hc⟩ := get?_some_of_lt src st.current hlt
      by_cases hd : isAlphaNumericC c
      · obtain ⟨st', hst', hs, ht, hl, hcur, hcur2⟩ :=
          ih { st with current := st.current + 1 }
            (by dsimp only; omega) (by dsimp only; omega)
        refine ⟨st', ?_, hs, ht, hl, by dsimp only at hcur; omega, hcur2⟩
        simp [identLoop, peekS_of_get src st c h hlt hc, Bind.bind,
          Except.bind, hd, advanceS_of_get src st c hc, hst']
      · refine ⟨st, ?_, rfl, rfl, rfl, le_refl _, hb⟩
        simp [identLoop, peekS_of_get src st c h hlt hc, Bind.bind,
          Except.bind, hd]

/-- A digit window slices to an all-digit list. -/
theorem window_slice_digits (src : List Char) :
    ∀ m a, (∀ k, k < m → ∃ c, src[a + k]? = some c ∧ isDigitC c = true) →
      a + m ≤ src.length →
      ((src.drop a).take m).all isDigitC = true := by
  intro m
  induction m with
  | zero => intro a _ _; simp
  | succ m2 ih =>
    intro a hw hlen
    have hlt : a < src.length := by omega
    rw [List.drop_eq_getElem_cons hlt, List.take_succ_cons, List.all_cons,
      Bool.and_eq_true]
    constructor
    · obtain ⟨c, hc, hd⟩ := hw 0 (by omega)
      simp only [Nat.add_zero] at hc
      rw [List.getElem?_eq_getElem hlt] at hc
      cases hc
      exact hd
    · exact ih (a + 1)
        (fun k hk => by
          obtain ⟨c, hc, hd⟩ := hw (k + 1) (by omega)
          exact ⟨c, by rw [← hc]; congr 1; omega, hd⟩)
        (by omega)

/-- Parsing an all-digit nonempty numeral succeeds. -/
theorem parseDouble_digits (l : List Char) (hne : l ≠ [])
    (hd : l.all isDigitC = true) : (parseDouble l).isSome = true := by
  have hnd : ∀ c ∈ l, (c != '.') = true := by
    intro c hc
    have hdc := (List.all_eq_true.mp hd) c hc
    simp only [bne_iff_ne, ne_eq]
    rintro rfl
    rw [show isDigitC '.' = false from by decide] at hdc
    exact Bool.noConfusion hdc
  have htake : l.takeWhile (fun c => c != '.') = l :=
    List.takeWhile_eq_self_iff.mpr hnd
  have hdrop : l.dropWhile (fun c => c != '.') = [] :=
    List.dropWhile_eq_nil_iff.mpr hnd
  simp only [parseDouble, htake, hdrop]
  simp [hne, hd]

theorem noDot_get (src : List Char) (k : Nat) (c : Char)
    (hnd : noDot src = true) (hc : src[k]? = some c) : (c == '.') = false := by
  have hm : c ∈ src := List.getElem?_mem hc
  have := (List.all_eq_true.mp hnd) c hm
  simpa [bne_iff_ne] using this

theorem stringFn_ok (src : List Char) (h : asciiOnly src = true) :
    ∀ n st, st.current ≤ src.length → src.length - st.current < n →
      st.start ≤ st.current →
      ∃ st', stringFn n src st = .ok st' ∧ st'.start = st.start ∧
        st.current ≤ st'.current ∧ st'.current ≤ src.length := by
  intro n st hb hn hss
  obtain ⟨st1, hst1, hs1, ht1, hc1, hc2⟩ := stringLoop_ok src h n st hb hn
  by_cases hend : src.length ≤ st1.current
  · refine ⟨st1, ?_, hs1, hc1, hc2⟩
    simp [stringFn, hst1, Bind.bind, Except.bind,
      isAtEnd_ascii_true src st1.current h hend]
  · have hlt : st1.current < src.length := by omega
    obtain ⟨c, hc⟩ := get?_some_of_lt src st1.current hlt
    have hcs : currentString src { st1 with current := st1.current + 1 } =
        .ok ((src.drop st1.start).take (st1.current + 1 - st1.start)) := by
      exact currentString_ascii src _ h (by dsimp only; omega)
        (by dsimp only; omega)
    refine ⟨{ st1 with
        current := st1.current + 1
        tokens := st1.tokens ++
          [Token.mk .STRING
            (String.mk ((src.drop st1.start).take (st1.current + 1 - st1.start)))
            (some (.string (String.mk
              ((((src.drop st1.start).take
                (st1.current + 1 - st1.start)).drop 1).dropLast))))
            st1.line] }, ?_,
      by dsimp only; exact hs1, by dsimp only; omega, by dsimp only; omega⟩
    simp [stringFn, hst1, Bind.bind, Except.bind,
      isAtEnd_ascii_false src st1.current h hlt,
      advanceS_of_get src st1 c hc, hcs,
      addToken_ascii src { st1 with current := st1.current + 1 } .STRING _
        h (by dsimp only; omega) (by dsimp only; omega)]

theorem numberFn_ok (src : List Char) (h : asciiOnly src = true)
    (hnd : noDot src = true) :
    ∀ n st, st.current ≤ src.length → src.length - st.current < n →
      st.start < st.current → DigitWindow src st.start st.current →
      ∃ st', numberFn n src st = .ok st' ∧ st'.start = st.start ∧
        st.current ≤ st'.current ∧ st'.current ≤ src.length := by
  intro n st hb hn hss hw
  obtain ⟨st1, hst1, hs1, ht1, hl1, hc1, hc2, hw1⟩ :=
    digitLoop_ok src h n st hb hn hw
  have hpeek : ∃ p, peekS src st1 = .ok p ∧ (p == '.') = false := by
    by_cases hend : src.length ≤ st1.current
    · exact ⟨'\x00', peekS_at_end src st1 h hend, by decide⟩
    · have hlt : st1.current < src.length := by omega
      obtain ⟨c, hc⟩ := get?_some_of_lt src st1.current hlt
      exact ⟨c, peekS_of_get src st1 c h hlt hc,
        noDot_get src st1.current c hnd hc⟩
  obtain ⟨p, hp, hpd⟩ := hpeek
  have hcs : currentString src st1 =
      .ok ((src.drop st1.start).take (st1.current - st1.start)) :=
    currentString_ascii src st1 h (by omega) hc2
  have hdig : ((src.drop st1.start).take (st1.current - st1.start)).all
      isDigitC = true := by
    refine window_slice_digits src (st1.current - st1.start) st1.start
      (fun k hk => ?_) (by omega)
    exact hw1 (st1.start + k) (by omega) (by omega)
  have hlen : ((src.drop st1.start).take (st1.current - st1.start)).length
      = st1.current - st1.start := by
    simp [List.length_take, List.length_drop]
    omega
  have hne : (src.drop st1.start).take (st1.current - st1.start) ≠ [] := by
    intro hnil
    rw [hnil] at hlen
    simp at hlen
    omega
  obtain ⟨q, hq⟩ := Option.isSome_iff_exists.mp
    (parseDouble_digits _ hne hdig)
  refine ⟨{ st1 with tokens := st1.tokens ++
      [Token.mk .NUMBER
        (String.mk ((src.drop st1.start).take (st1.current - st1.start)))
        (some (.double q)) st1.line] }, ?_,
    by dsimp only; exact hs1, by dsimp only; omega, by dsimp only; omega⟩
  simp [numberFn, hst1, Bind.bind, Except.bind, Pure.pure, Except.pure,
    hp, hpd, hcs, hq, addToken_ascii src st1 .NUMBER _ h (by omega) hc2]

theorem identifierFn_ok (src : List Char) (h : asciiOnly src = true) :
    ∀ n st, st.current ≤ src.length → src.length - st.current < n →
      st.start ≤ st.current →
      ∃ st', identifierFn n src st = .ok st' ∧ st'.start = st.start ∧
        st.current ≤ st'.current ∧ st'.current ≤ src.length := by
  intro n st hb hn hss
  obtain ⟨st1, hst1, hs1, ht1, hl1, hc1, hc2⟩ := identLoop_ok src h n st hb hn
  have hcs : currentString src st1 =
      .ok ((src.drop st1.start).take (st1.current - st1.start)) :=
    currentString_ascii src st1 h (by omega) hc2
  cases hkw : keywordLookup
      (String.mk ((src.drop st1.start).take (st1.current - st1.start))) with
  | some kw =>
    refine ⟨{ st1 with tokens := st1.tokens ++
        [Token.mk kw
          (String.mk ((src.drop st1.start).take (st1.current - st1.start)))
          none st1.line] }, ?_,
      by dsimp only; exact hs1, by dsimp only; omega, by dsimp only; omega⟩
    simp [identifierFn, hst1, Bind.bind, Except.bind, hcs, hkw,
      addToken_ascii src st1 kw none h (by omega) hc2]
  | none =>
    refine ⟨{ st1 with tokens := st1.tokens ++
        [Token.mk .IDENTIFIER
          (String.mk ((src.drop st1.start).take (st1.current - st1.start)))
          none st1.line] }, ?_,
      by dsimp only; exact hs1, by dsimp only; omega, by dsimp only; omega⟩
    simp [identifierFn, hst1, Bind.bind, Except.bind, hcs, hkw,
      addToken_ascii src st1 .IDENTIFIER none h (by omega) hc2]

theorem scanToken_ok (src : List Char) (h : asciiOnly src = true)
    (hnd : noDot src = true) :
    ∀ n st, st.current < src.length → st.start = st.current →
      src.length - st.current ≤ n →
      ∃ st', scanToken n src st = .ok st' ∧ st.current < st'.current ∧
        st'.current ≤ src.length := by
  intro n st hlt hss hn
  obtain ⟨c, hc⟩ := get?_some_of_lt src st.current hlt
  have hadv := advanceS_of_get src st c hc
  have hb2 : ({ st with current := st.current + 1 } : SState).current ≤
      src.length := by dsimp only; omega
  have hs2 : ({ st with current := st.current + 1 } : SState).start ≤
      ({ st with current := st.current + 1 } : SState).current := by
    dsimp only; omega
  have haddt : ∀ tt lit, addToken src tt lit
      { st with current := st.current + 1 } =
      .ok { st with
            current := st.current + 1
            tokens := st.tokens ++
              [Token.mk tt (String.mk ((src.drop st.start).take
                (st.current + 1 - st.start))) lit st.line] } :=
    fun tt lit => addToken_ascii src _ tt lit h hs2 hb2
  have hsingle : ∀ tt, ∃ st', addToken src tt none
      { st with current := st.current + 1 } = .ok st' ∧
      st.current < st'.current ∧ st'.current ≤ src.length :=
    fun tt => ⟨_, haddt tt none, by dsimp only; omega, by dsimp only; omega⟩
  have htwo : ∀ (ch : Char) (tt1 tt2 : TokenType),
      ∃ st', (do
          let (m, st1) ← isMatchS src ch { st with current := st.current + 1 }
          if m then addToken src tt1 none st1 else addToken src tt2 none st1 :
            Except SOut SState) = .ok st' ∧
        st.current < st'.current ∧ st'.current ≤ src.length := by
    intro ch tt1 tt2
    obtain ⟨b, st3, hm, hms, hml, hmt, hmc, hmc2⟩ :=
      isMatchS_ascii src ch { st with current := st.current + 1 } h hb2
    have hadd3 : ∀ tt, addToken src tt none st3 =
        .ok { st3 with tokens := st3.tokens ++
          [Token.mk tt (String.mk ((src.drop st3.start).take
            (st3.current - st3.start))) none st3.line] } := by
      intro tt
      refine addToken_ascii src st3 tt none h ?_ hmc2
      rw [hms]
      dsimp only at hmc ⊢
      omega
    cases b
    · refine ⟨{ st3 with tokens := st3.tokens ++
          [Token.mk tt2 (String.mk ((src.drop st3.start).take
            (st3.current - st3.start))) none st3.line] }, ?_,
        by dsimp only at hmc ⊢; omega, by dsimp only; omega⟩
      simp [Bind.bind, Except.bind, hm, hadd3]
    · refine ⟨{ st3 with tokens := st3.tokens ++
          [Token.mk tt1 (String.mk ((src.drop st3.start).take
            (st3.current - st3.start))) none st3.line] }, ?_,
        by dsimp only at hmc ⊢; omega, by dsimp only; omega⟩
      simp [Bind.bind, Except.bind, hm, hadd3]
  by_cases h1 : c == '('
  · obtain ⟨st', he, hl2, hu2⟩ := hsingle .LEFT_PAREN
    refine ⟨st', ?_, hl2, hu2⟩
    rw [← he]
    simp [scanToken, hadv, Bind.bind, Except.bind, h1]
  by_cases h2 : c == ')'
  · obtain ⟨st', he, hl2, hu2⟩ := hsingle .RIGHT_PAREN
    refine ⟨st', ?_, hl2, hu2⟩
    rw [← he]
    simp [scanToken, hadv, Bind.bind, Except.bind, h1, h2]
  by_cases h3 : c == '{'
  · obtain ⟨st', he, hl2, hu2⟩ := hsingle .LEFT_BRACE
    refine ⟨st', ?_, hl2, hu2⟩
    rw [← he]
    simp [scanToken, hadv, Bind.bind, Except.bind, h1, h2, h3]
  by_cases h4 : c == '}'
  · obtain ⟨st', he, hl2, hu2⟩ := hsingle .RIGHT_BRACE
    refine ⟨st', ?_, hl2, hu2⟩
    rw [← he]
    simp [scanToken, hadv, Bind.bind, Except.bind, h1, h2, h3, h4]
  by_cases h5 : c == ','
  · obtain ⟨st', he, hl2, hu2⟩ := hsingle .COMMA
    refine ⟨st', ?_, hl2, hu2⟩
    rw [← he]
    simp [scanToken, hadv, Bind.bind, Except.bind, h1, h2, h3, h4, h5]
  by_cases h6 : c == '.'
  · obtain ⟨st', he, hl2, hu2⟩ := hsingle .DOT
    refine ⟨st', ?_, hl2, hu2⟩
    rw [← he]
    simp [scanToken, hadv, Bind.bind, Except.bind, h1, h2, h3, h4, h5, h6]
  by_cases h7 : c == '-'
  · obtain ⟨st', he, hl2, hu2⟩ := hsingle .MINUS
    refine ⟨st', ?_, hl2, hu2⟩
    rw [← he]
    simp [scanToken, hadv, Bind.bind, Except.bind, h1, h2, h3, h4, h5, h6, h7]
  by_cases h8 : c == '+'
  · obtain ⟨st', he, hl2, hu2⟩ := hsingle .PLUS
    refine ⟨st', ?_, hl2, hu2⟩
    rw [← he]
    simp [scanToken, hadv, Bind.bind, Except.bind, h1, h2, h3, h4, h5, h6, h7,
      h8]
  by_cases h9 : c == ';'
  · obtain ⟨st', he, hl2, hu2⟩ := hsingle .SEMICOLON
    refine ⟨st', ?_, hl2, hu2⟩
    rw [← he]
    simp [scanToken, hadv, Bind.bind, Except.bind, h1, h2, h3, h4, h5, h6, h7,
      h8, h9]
  by_cases h10 : c == '*'
  · obtain ⟨st', he, hl2, hu2⟩ := hsingle .STAR
    refine ⟨st', ?_, hl2, hu2⟩
    rw [← he]
    simp [scanToken, hadv, Bind.bind, Except.bind, h1, h2, h3, h4, h5, h6, h7,
      h8, h9, h10]
  by_cases h11 : c == '!'
  · obtain ⟨st', he, hcl, hcu⟩ := htwo '=' .BANG_EQUAL .BANG
    refine ⟨st', ?_, hcl, hcu⟩
    rw [← he]
    simp [scanToken, hadv, Bind.bind, Except.bind, h1, h2, h3, h4, h5, h6, h7,
      h8, h9, h10, h11]
  by_cases h12 : c == '='
  · obtain ⟨st', he, hcl, hcu⟩ := htwo '=' .EQUAL_EQUAL .EQUAL
    refine ⟨st', ?_, hcl, hcu⟩
    rw [← he]
    simp [scanToken, hadv, Bind.bind, Except.bind, h1, h2, h3, h4, h5, h6, h7,
      h8, h9, h10, h11, h12]
  by_cases h13 : c == '<'
  · obtain ⟨st', he, hcl, hcu⟩ := htwo '=' .LESS_EQUAL .LESS
    refine ⟨st', ?_, hcl, hcu⟩
    rw [← he]
    simp [scanToken, hadv, Bind.bind, Except.bind, h1, h2, h3, h4, h5, h6, h7,
      h8, h9, h10, h11, h12, h13]
  by_cases h14 : c == '>'
  · obtain ⟨st', he, hcl, hcu⟩ := htwo '=' .GREATER_EQUAL .GREATER
    refine ⟨st', ?_, hcl, hcu⟩
    rw [← he]
    simp [scanToken, hadv, Bind.bind, Except.bind, h1, h2, h3, h4, h5, h6, h7,
      h8, h9, h10, h11, h12, h13, h14]
  by_cases h15 : c == '/'
  · obtain ⟨b, st3, hm, hms, hml, hmt, hmc, hmc2⟩ :=
      isMatchS_ascii src '/' { st with current := st.current + 1 } h hb2
    cases b
    · have hadd3 : addToken src .SLASH none st3 =
          .ok { st3 with tokens := st3.tokens ++
            [Token.mk .SLASH (String.mk ((src.drop st3.start).take
              (st3.current - st3.start))) none st3.line] } := by
        refine addToken_ascii src st3 .SLASH none h ?_ hmc2
        rw [hms]
        dsimp only at hmc ⊢
        omega
      refine ⟨{ st3 with tokens := st3.tokens ++
          [Token.mk .SLASH (String.mk ((src.drop st3.start).take
            (st3.current - st3.start))) none st3.line] }, ?_,
        by dsimp only at hmc ⊢; omega, by dsimp only; omega⟩
      simp [scanToken, hadv, Bind.bind, Except.bind, h1, h2, h3,
        h4, h5, h6, h7, h8, h9, h10, h11, h12, h13, h14, h15, hm, hadd3]
    · obtain ⟨st4, hcl4, hs4, ht4, hcc4, hcu4⟩ :=
        commentLoop_ok src h n st3 hmc2 (by dsimp only at hmc; omega)
      refine ⟨st4, ?_, by dsimp only at hmc; omega, hcu4⟩
      simp [scanToken, hadv, Bind.bind, Except.bind, h1, h2, h3, h4, h5, h6,
        h7, h8, h9, h10, h11, h12, h13, h14, h15, hm, hcl4]
  by_cases h16 : c == ' '
  · refine ⟨{ st with current := st.current + 1 }, ?_,
      by dsimp only; omega, hb2⟩
    simp [scanToken, hadv, Bind.bind, Except.bind, h1, h2, h3, h4,
      h5, h6, h7, h8, h9, h10, h11, h12, h13, h14, h15, h16]
  by_cases h17 : c == '\r'
  · refine ⟨{ st with current := st.current + 1 }, ?_,
      by dsimp only; omega, hb2⟩
    simp [scanToken, hadv, Bind.bind, Except.bind, h1, h2, h3, h4,
      h5, h6, h7, h8, h9, h10, h11, h12, h13, h14, h15, h16, h17]
  by_cases h18 : c == '\t'
  · refine ⟨{ st with current := st.current + 1 }, ?_,
      by dsimp only; omega, hb2⟩
    simp [scanToken, hadv, Bind.bind, Except.bind, h1, h2, h3, h4,
      h5, h6, h7, h8, h9, h10, h11, h12, h13, h14, h15, h16, h17, h18]
  by_cases h19 : c == '\n'
  · refine ⟨{ st with current := st.current + 1, line := st.line + 1 }, ?_,
      by dsimp only; omega, by dsimp only; omega⟩
    simp [scanToken, hadv, Bind.bind, Except.bind, h1, h2, h3, h4,
      h5, h6, h7, h8, h9, h10, h11, h12, h13, h14, h15, h16, h17, h18, h19]
  by_cases h20 : c == '"'
  · obtain ⟨st', he, hs', hcl, hcu⟩ := stringFn_ok src h n
      { st with current := st.current + 1 } hb2 (by dsimp only; omega)
      (by dsimp only; omega)
    refine ⟨st', ?_, by dsimp only at hcl; omega, hcu⟩
    simp [scanToken, hadv, Bind.bind, Except.bind, h1, h2, h3, h4, h5, h6, h7,
      h8, h9, h10, h11, h12, h13, h14, h15, h16, h17, h18, h19, h20, he]
  by_cases h21 : isDigitC c
  · obtain ⟨st', he, hs', hcl, hcu⟩ := numberFn_ok src h hnd n
      { st with current := st.current + 1 } hb2 (by dsimp only; omega)
      (by dsimp only; omega)
      (by
        intro k hk1 hk2
        dsimp only at hk1 hk2
        have hke : k = st.current := by omega
        subst hke
        exact ⟨c, hc, h21⟩)
    refine ⟨st', ?_, by dsimp only at hcl; omega, hcu⟩
    simp [scanToken, hadv, Bind.bind, Except.bind, h1, h2, h3, h4, h5, h6, h7,
      h8, h9, h10, h11, h12, h13, h14, h15, h16, h17, h18, h19, h20, h21, he]
  by_cases h22 : isAlphaC c
  · obtain ⟨st', he, hs', hcl, hcu⟩ := identifierFn_ok src h n
      { st with current := st.current + 1 } hb2 (by dsimp only; omega)
      (by dsimp only; omega)
    refine ⟨st', ?_, by dsimp only at hcl; omega, hcu⟩
    simp [scanToken, hadv, Bind.bind, Except.bind, h1, h2, h3, h4, h5, h6, h7,
      h8, h9, h10, h11, h12, h13, h14, h15, h16, h17, h18, h19, h20, h21, h22,
      he]
  · refine ⟨{ st with current := st.current + 1 }, ?_,
      by dsimp only; omega, hb2⟩
    simp [scanToken, hadv, Bind.bind, Except.bind, h1, h2, h3, h4,
      h5, h6, h7, h8, h9, h10, h11, h12, h13, h14, h15, h16, h17, h18, h19,
      h20, h21, h22]

theorem scanLoop_ok (src : List Char) (h : asciiOnly src = true)
    (hnd : noDot src = true) :
    ∀ n st, st.current ≤ src.length → src.length - st.current < n →
      ∃ st', scanLoop n src st = .ok st' := by
  intro n
  induction n with
  | zero => intro st hb hn; omega
  | succ m ih =>
    intro st hb hn
    by_cases hend : src.length ≤ st.current
    · exact ⟨st, by simp [scanLoop, isAtEnd_ascii_true src st.current h hend]⟩
    · have hlt : st.current < src.length := by omega
      obtain ⟨st1, hst1, hc1, hc2⟩ := scanToken_ok src h hnd m
        { st with start := st.current } (by dsimp only; omega) rfl
        (by dsimp only; omega)
      obtain ⟨st', hst'⟩ := ih st1 hc2 (by dsimp only at hc1; omega)
      exact ⟨st', by
        simp [scanLoop, isAtEnd_ascii_false src st.current h hlt, hst1, hst',
          Bind.bind, Except.bind]⟩

/-! ## C10 -/

/-- Counterexample to C10 as stated: the all-ASCII two-character source
`1.` makes `scan_tokens` panic — `Scanner::number` sees the trailing dot,
and `peek_next`'s guard `current + 1 > source.len()` does not fire at
`current + 1 = len`, so `chars().nth(len).unwrap()` panics.  So it is NOT
the case that scanning every ASCII-only source terminates without
panicking. -/
theorem c10_counterexample_ascii_panic :
    asciiOnly "1.".data = true ∧
    scanSource 10 "1." =
      .error (.crashed "called Option::unwrap on a None value") :=
  ⟨by decide, rfl⟩

/-- C10 amended: the scanner's end-of-input test compares the per-character
cursor against the BYTE length of the source and lexemes are sliced at those
counts as byte offsets, so (1) every ASCII source containing no dot scans to
completion without panicking (the dot carve-out is forced by the `peek_next`
off-by-one exhibited in the counterexample), while (2) the ASCII source `1.`
panics via that lookahead and (3) the multi-byte source `é` panics in
`current_char` because the byte length exceeds the character count. -/
theorem c10_scanner_cursor_amended :
    (∀ src : List Char, asciiOnly src = true → noDot src = true →
      ∀ n, src.length < n →
        ∃ out, scanTokens n src initScan = .ok out) ∧
    scanSource 10 "1." =
      .error (.crashed "called Option::unwrap on a None value") ∧
    scanSource 10 "é" =
      .error (.crashed "called Option::unwrap on a None value") := by
  refine ⟨?_, rfl, rfl⟩
  intro src h hnd n hn
  obtain ⟨st', hst'⟩ := scanLoop_ok src h hnd n initScan
    (by simp [initScan]) (by simp [initScan]; omega)
  refine ⟨(st'.tokens ++ [Token.mk .EOF "" none st'.line],
    { st' with tokens := st'.tokens ++ [Token.mk .EOF "" none st'.line] }), ?_⟩
  simp [scanTokens, Bind.bind, Except.bind, hst']

/-- Witness for C10's amendment: the ASCII dot-free source `ab c` scans
successfully. -/
theorem c10_scanner_cursor_amended_witness :
    ∃ out, scanTokens 10 "ab c".data initScan = .ok out :=
  c10_scanner_cursor_amended.1 "ab c".data (by decide) (by decide) 10
    (by decide)

end Rustlox
